import Mathlib

/-!
Verification of the wine-sales forecasting core
(`src/components/alin/sales/SalesChartOnCategory.tsx` and `src/unnamed/part_000`).

Modelling conventions for the shallow embedding:
* JavaScript numbers are modelled by `ℚ`.  Decimal literals of the source
  (`0.3`, `0.1`, `0.2`) are embedded as the exact rationals they denote.
  Division is total with `x / 0 = 0`; the source has no guards against
  division by zero either (its §9 "open question"), so no claim below
  depends on the value of a division by zero.
* `Math.pow(x, 1/n)` (used only by the exponential method's growth ratio)
  is irrational in general, so it is modelled by an explicit function
  parameter `powRoot : ℚ → ℚ → ℚ`; every theorem quantifies over all such
  functions, which subsumes the concrete floating-point computation.
* `Math.pow(x, monthsAhead)` has a natural-number exponent and is embedded
  exactly as `x ^ k`.
* The `while (currentYear < targetYear || ...)` loops are embedded by
  structural recursion on a fuel value `monthsFuel`, which equals the exact
  number of iterations of the source loop whenever the months involved lie
  in `1..12` (the data-model invariant of the source).
* JavaScript `Array.prototype.sort` (stable) is modelled by
  `List.insertionSort`, which is stable; for a total preorder the result of
  any stable sort is unique, so the two agree extensionally.
* The JS `Map` of the aggregator is keyed by the string `` `${year}-${month}` ``;
  since `Int.toString` contains `-` only as a leading sign, that string key
  is injective in the pair `(year, month)`, so the map is modelled with the
  pair as key.
* Display-only string fields (`yearMonth`) are omitted from the records.
-/

namespace WineSales

/-- One point of the dual-metric series (`MonthlyStats` enriched with the
change fields and the `isPredicted` flag, as produced by `allFormattedData`
and by the prediction functions of `SalesChartOnCategory.tsx`). -/
structure StatPoint where
  year : Int
  month : Int
  avgPrice : ℚ
  totalAmount : ℚ
  priceChange : ℚ := 0
  salesChange : ℚ := 0
  priceChangePercent : ℚ := 0
  salesChangePercent : ℚ := 0
  isPredicted : Bool := false
deriving Repr, DecidableEq, Inhabited

/-- A raw dual-metric input record (`MonthlyStats` of `@/app/types`):
the `chartData` prop before enrichment. -/
structure MonthlyStat where
  year : Int
  month : Int
  avgPrice : ℚ
  totalAmount : ℚ
deriving Repr, DecidableEq, Inhabited

/-- The calendar stepper shared by every prediction loop:
`currentMonth++; if (currentMonth > 12) { currentMonth = 1; currentYear++ }`. -/
def stepMonth (y m : Int) : Int × Int :=
  if m + 1 > 12 then (y + 1, 1) else (y, m + 1)

/-- Strict calendar order on `(year, month)` pairs. -/
def ymLt (a b : Int × Int) : Prop :=
  a.1 < b.1 ∨ (a.1 = b.1 ∧ a.2 < b.2)

instance : DecidableRel ymLt := fun a b =>
  inferInstanceAs (Decidable (a.1 < b.1 ∨ (a.1 = b.1 ∧ a.2 < b.2)))

/-- Number of calendar months from `(cY, cM)` up to `(tY, tM)`; for months in
`1..12` this is exactly the iteration count of the source's `while` loops,
and it is used as the structural fuel of their embeddings. -/
def monthsFuel (cY cM tY tM : Int) : Nat :=
  (12 * tY + tM - (12 * cY + cM)).toNat

/-- The record each dual-metric prediction loop pushes
(`predictions.push({ year, month, avgPrice: Math.max(0, predictedPrice), ... })`):
`prev` is the source's `prevItem` (last pushed prediction, or `lastData`),
`pP`/`pS` the unclamped per-step predicted price and sales values. -/
def predPoint (prev : StatPoint) (y m : Int) (pP pS : ℚ) : StatPoint :=
  { year := y
    month := m
    avgPrice := max 0 pP
    totalAmount := max 0 pS
    priceChange := pP - prev.avgPrice
    salesChange := pS - prev.totalAmount
    priceChangePercent := (pP - prev.avgPrice) / prev.avgPrice * 100
    salesChangePercent := (pS - prev.totalAmount) / prev.totalAmount * 100
    isPredicted := true }

/-- The generation loop shared verbatim by all nine prediction methods:
`while (currentYear < targetYear || (currentYear === targetYear && currentMonth < targetMonth))`
advances one month, computes the per-step values (through `step`, the only
part in which the methods differ, with its method-specific state `σ`:
a running index, a `monthsAhead` counter, or ARIMA's rolling windows),
and pushes one predicted point. -/
def predWalk {σ : Type} (step : σ → Int × Int → ℚ × ℚ × σ) :
    Nat → σ → Int → Int → Int → Int → StatPoint → List StatPoint
  | 0, _, _, _, _, _, _ => []
  | fuel + 1, s, cY, cM, tY, tM, prev =>
    if cY < tY ∨ (cY = tY ∧ cM < tM) then
      let ym := stepMonth cY cM
      let r := step s ym
      let q := predPoint prev ym.1 ym.2 r.1 r.2.1
      q :: predWalk step fuel r.2.2 ym.1 ym.2 tY tM q
    else []

/-- JS `historicalData[historicalData.length - 1]`. -/
def lastD (h : List StatPoint) : StatPoint := h.getLastD default

/-- `sumX` of the regression loops: sum of the indices `0..n-1`. -/
def sumX (h : List StatPoint) : ℚ := (h.enum.map (fun p => (p.1 : ℚ))).sum

/-- `sumXX` of the regression loops: sum of squared indices. -/
def sumXX (h : List StatPoint) : ℚ := (h.enum.map (fun p => (p.1 : ℚ) * p.1)).sum

/-- `sumY` of the regression loops, for the metric selected by `f`. -/
def sumY (f : StatPoint → ℚ) (h : List StatPoint) : ℚ := (h.map f).sum

/-- `sumXY` of the regression loops, for the metric selected by `f`. -/
def sumXY (f : StatPoint → ℚ) (h : List StatPoint) : ℚ :=
  (h.enum.map (fun p => (p.1 : ℚ) * f p.2)).sum

/-- The ordinary-least-squares slope
`(n * sumXY - sumX * sumY) / (n * sumXX - sumX * sumX)`. -/
def olsSlope (f : StatPoint → ℚ) (h : List StatPoint) : ℚ :=
  let n : ℚ := h.length
  (n * sumXY f h - sumX h * sumY f h) / (n * sumXX h - sumX h * sumX h)

/-- The ordinary-least-squares intercept `(sumY - slope * sumX) / n`. -/
def olsIntercept (f : StatPoint → ℚ) (h : List StatPoint) : ℚ :=
  let n : ℚ := h.length
  (sumY f h - olsSlope f h * sumX h) / n

/-- `linearPrediction` (`SalesChartOnCategory.tsx` lines 564-618): OLS fit
over the full history for each metric; the per-step value is
`slope * index + intercept` with `index` continuing to count up from `n`. -/
def linearPrediction (h : List StatPoint) (tY tM : Int) : List StatPoint :=
  let n := h.length
  let slopePrice := olsSlope (fun d => d.avgPrice) h
  let interceptPrice := olsIntercept (fun d => d.avgPrice) h
  let slopeSales := olsSlope (fun d => d.totalAmount) h
  let interceptSales := olsIntercept (fun d => d.totalAmount) h
  let last := lastD h
  predWalk
    (fun (idx : Nat) _ =>
      (slopePrice * idx + interceptPrice, slopeSales * idx + interceptSales, idx + 1))
    (monthsFuel last.year last.month tY tM) n last.year last.month tY tM last

/-- Power sum `Σ index^k` of the polynomial regression. -/
def sumXk (k : Nat) (h : List StatPoint) : ℚ :=
  (h.enum.map (fun p => (p.1 : ℚ) ^ k)).sum

/-- Moment sum `Σ index^k * value` of the polynomial regression. -/
def sumXkY (k : Nat) (f : StatPoint → ℚ) (h : List StatPoint) : ℚ :=
  (h.enum.map (fun p => (p.1 : ℚ) ^ k * f p.2)).sum

/-- Denominator of the degree-2 Cramer's-rule solution of
`polynomialPrediction`. -/
def polyDenom (h : List StatPoint) : ℚ :=
  let n : ℚ := h.length
  n * (sumXk 2 h * sumXk 4 h - sumXk 3 h * sumXk 3 h)
    - sumXk 1 h * (sumXk 1 h * sumXk 4 h - sumXk 2 h * sumXk 3 h)
    + sumXk 2 h * (sumXk 1 h * sumXk 3 h - sumXk 2 h * sumXk 2 h)

/-- Constant coefficient `a` of the degree-2 fit. -/
def polyA (f : StatPoint → ℚ) (h : List StatPoint) : ℚ :=
  (sumY f h * (sumXk 2 h * sumXk 4 h - sumXk 3 h * sumXk 3 h)
    - sumXk 1 h * (sumXkY 1 f h * sumXk 4 h - sumXkY 2 f h * sumXk 3 h)
    + sumXk 2 h * (sumXkY 1 f h * sumXk 3 h - sumXkY 2 f h * sumXk 2 h)) / polyDenom h

/-- Linear coefficient `b` of the degree-2 fit. -/
def polyB (f : StatPoint → ℚ) (h : List StatPoint) : ℚ :=
  let n : ℚ := h.length
  (n * (sumXkY 1 f h * sumXk 4 h - sumXkY 2 f h * sumXk 3 h)
    - sumY f h * (sumXk 1 h * sumXk 4 h - sumXk 2 h * sumXk 3 h)
    + sumXk 2 h * (sumXk 1 h * sumXkY 2 f h - sumXk 2 h * sumXkY 1 f h)) / polyDenom h

/-- Quadratic coefficient `c` of the degree-2 fit. -/
def polyC (f : StatPoint → ℚ) (h : List StatPoint) : ℚ :=
  let n : ℚ := h.length
  (n * (sumXk 2 h * sumXkY 2 f h - sumXk 3 h * sumXkY 1 f h)
    - sumXk 1 h * (sumXk 1 h * sumXkY 2 f h - sumXk 2 h * sumXkY 1 f h)
    + sumY f h * (sumXk 1 h * sumXk 3 h - sumXk 2 h * sumXk 2 h)) / polyDenom h

/-- `polynomialPrediction` (lines 620-694): degree-2 regression; per-step
value `a + b * index + c * index * index`, index counting up from `n`. -/
def polynomialPrediction (h : List StatPoint) (tY tM : Int) : List StatPoint :=
  let n := h.length
  let aP := polyA (fun d => d.avgPrice) h
  let bP := polyB (fun d => d.avgPrice) h
  let cP := polyC (fun d => d.avgPrice) h
  let aS := polyA (fun d => d.totalAmount) h
  let bS := polyB (fun d => d.totalAmount) h
  let cS := polyC (fun d => d.totalAmount) h
  let last := lastD h
  predWalk
    (fun (idx : Nat) _ =>
      (aP + bP * idx + cP * (idx * idx), aS + bS * idx + cS * (idx * idx), idx + 1))
    (monthsFuel last.year last.month tY tM) n last.year last.month tY tM last

/-- `exponentialPrediction` (lines 696-744): growth ratio
`Math.pow(last/first, 1/n)` (modelled through `powRoot`, see the header);
per-step value `lastValue * ratio ^ monthsAhead`. -/
def exponentialPrediction (powRoot : ℚ → ℚ → ℚ) (h : List StatPoint) (tY tM : Int) :
    List StatPoint :=
  let n := h.length
  let firstPrice := h.headI.avgPrice
  let lastPrice := (lastD h).avgPrice
  let firstSales := h.headI.totalAmount
  let lastSales := (lastD h).totalAmount
  let growthRatePrice := powRoot (lastPrice / firstPrice) n
  let growthRateSales := powRoot (lastSales / firstSales) n
  let last := lastD h
  predWalk
    (fun (k : Nat) _ =>
      let ka := k + 1
      (lastPrice * growthRatePrice ^ ka, lastSales * growthRateSales ^ ka, ka))
    (monthsFuel last.year last.month tY tM) 0 last.year last.month tY tM last

/-- Historical average of the metric `f` over the observations of calendar
month `m` (`monthlyAvg` of the seasonal methods); `0` if never observed. -/
def monthlyAvgOf (f : StatPoint → ℚ) (h : List StatPoint) (m : Int) : ℚ :=
  let vs := (h.filter (fun d => d.month == m)).map f
  if vs.length = 0 then 0 else vs.sum / vs.length

/-- `seasonalPrediction` (lines 746-830): monthly seasonal baseline
(falling back to the overall mean when the baseline is `0`, as the source's
`|| avg` does) scaled by `(1 + growth/100) ^ monthsAhead`, with the growth
rate derived from the OLS slope relative to the overall mean. -/
def seasonalPrediction (h : List StatPoint) (tY tM : Int) : List StatPoint :=
  let n : ℚ := h.length
  let trendSlopePrice := olsSlope (fun d => d.avgPrice) h
  let trendSlopeSales := olsSlope (fun d => d.totalAmount) h
  let avgPrice := sumY (fun d => d.avgPrice) h / n
  let avgSales := sumY (fun d => d.totalAmount) h / n
  let monthlyGrowthPrice := trendSlopePrice / avgPrice * 100
  let monthlyGrowthSales := trendSlopeSales / avgSales * 100
  let last := lastD h
  predWalk
    (fun (k : Nat) ym =>
      let ka := k + 1
      let mp := monthlyAvgOf (fun d => d.avgPrice) h ym.2
      let ms := monthlyAvgOf (fun d => d.totalAmount) h ym.2
      let seasonalPrice := if mp = 0 then avgPrice else mp
      let seasonalSales := if ms = 0 then avgSales else ms
      (seasonalPrice * (1 + monthlyGrowthPrice / 100) ^ ka,
       seasonalSales * (1 + monthlyGrowthSales / 100) ^ ka, ka))
    (monthsFuel last.year last.month tY tM) 0 last.year last.month tY tM last

/-- `movingAveragePrediction` (lines 832-892): mean over the last
`min(6, n)` points plus `slope * monthsAhead` with the slope fitted on that
window. -/
def movingAveragePrediction (h : List StatPoint) (tY tM : Int) : List StatPoint :=
  let windowSize := min 6 h.length
  let recentData := h.drop (h.length - windowSize)
  let movingAvgPrice := sumY (fun d => d.avgPrice) recentData / (windowSize : ℚ)
  let movingAvgSales := sumY (fun d => d.totalAmount) recentData / (windowSize : ℚ)
  let slopePrice := olsSlope (fun d => d.avgPrice) recentData
  let slopeSales := olsSlope (fun d => d.totalAmount) recentData
  let last := lastD h
  predWalk
    (fun (k : Nat) _ =>
      let ka := k + 1
      (movingAvgPrice + slopePrice * ka, movingAvgSales + slopeSales * ka, ka))
    (monthsFuel last.year last.month tY tM) 0 last.year last.month tY tM last

/-- `weightedMovingAveragePrediction` (lines 894-961): same window, with
linear weights `1..windowSize` for the mean; trend term as in
`movingAveragePrediction`. -/
def weightedMovingAveragePrediction (h : List StatPoint) (tY tM : Int) : List StatPoint :=
  let windowSize := min 6 h.length
  let recentData := h.drop (h.length - windowSize)
  let weightSum : ℚ := (recentData.enum.map (fun p => (p.1 : ℚ) + 1)).sum
  let weightedSumPrice := (recentData.enum.map (fun p => p.2.avgPrice * ((p.1 : ℚ) + 1))).sum
  let weightedSumSales := (recentData.enum.map (fun p => p.2.totalAmount * ((p.1 : ℚ) + 1))).sum
  let weightedAvgPrice := weightedSumPrice / weightSum
  let weightedAvgSales := weightedSumSales / weightSum
  let slopePrice := olsSlope (fun d => d.avgPrice) recentData
  let slopeSales := olsSlope (fun d => d.totalAmount) recentData
  let last := lastD h
  predWalk
    (fun (k : Nat) _ =>
      let ka := k + 1
      (weightedAvgPrice + slopePrice * ka, weightedAvgSales + slopeSales * ka, ka))
    (monthsFuel last.year last.month tY tM) 0 last.year last.month tY tM last

/-- Final `(level, trend)` of Holt's double exponential smoothing over the
metric `f` with `α = 0.3`, `β = 0.1`: level starts at the first value, trend
at second minus first (`0` with fewer than two points), then one update per
remaining historical point. -/
def esParams (f : StatPoint → ℚ) (h : List StatPoint) : ℚ × ℚ :=
  let l0 := f h.headI
  let t0 : ℚ := match h with
    | a :: b :: _ => f b - f a
    | _ => 0
  (h.drop 1).foldl
    (fun lt x =>
      let l := (3 / 10) * f x + (1 - 3 / 10) * (lt.1 + lt.2)
      let t := (1 / 10) * (l - lt.1) + (1 - 1 / 10) * lt.2
      (l, t))
    (l0, t0)

/-- `exponentialSmoothingPrediction` (lines 963-1020): per-step value
`level + monthsAhead * trend`, the level and trend held fixed over the
forecast horizon. -/
def exponentialSmoothingPrediction (h : List StatPoint) (tY tM : Int) : List StatPoint :=
  let ltP := esParams (fun d => d.avgPrice) h
  let ltS := esParams (fun d => d.totalAmount) h
  let last := lastD h
  predWalk
    (fun (k : Nat) _ =>
      let ka := k + 1
      (ltP.1 + ka * ltP.2, ltS.1 + ka * ltS.2, ka))
    (monthsFuel last.year last.month tY tM) 0 last.year last.month tY tM last

/-- Initial seasonal ratios of Holt-Winters: for the first
`min(12, length)` positions, value divided by the overall mean; `0`
elsewhere (the source's `fill(0)`).  The 12-slot array is modelled as a
function on `Nat`. -/
def hwSeasonalInit (f : StatPoint → ℚ) (h : List StatPoint) : Nat → ℚ :=
  let avg := sumY f h / (h.length : ℚ)
  fun i => if i < 12 ∧ i < h.length then f (h.getD i default) / avg else 0

/-- Final `(level, trend, seasonal)` state of the Holt-Winters recursion
over metric `f` with `α = 0.3`, `β = 0.1`, `γ = 0.2`, period 12:
level starts at `first / seasonal[0]`, trend at `0`; one update per
remaining historical point, also rewriting the point's seasonal slot. -/
def hwParams (f : StatPoint → ℚ) (h : List StatPoint) : ℚ × ℚ × (Nat → ℚ) :=
  let s0 := hwSeasonalInit f h
  let l0 := f h.headI / s0 0
  (h.enum.drop 1).foldl
    (fun lts p =>
      let i := p.1 % 12
      let l := (3 / 10) * (f p.2 / lts.2.2 i) + (1 - 3 / 10) * (lts.1 + lts.2.1)
      let t := (1 / 10) * (l - lts.1) + (1 - 1 / 10) * lts.2.1
      let s := fun j => if j = i then (2 / 10) * (f p.2 / l) + (1 - 2 / 10) * lts.2.2 i
               else lts.2.2 j
      (l, t, s))
    (l0, 0, s0)

/-- `holtWintersPrediction` (lines 1022-1097): with fewer than 12 points it
falls back to `exponentialSmoothingPrediction`; otherwise the per-step value
is `(level + monthsAhead * trend) * seasonal[(month - 1) % 12]`. -/
def holtWintersPrediction (h : List StatPoint) (tY tM : Int) : List StatPoint :=
  if h.length < 12 then exponentialSmoothingPrediction h tY tM
  else
    let prP := hwParams (fun d => d.avgPrice) h
    let prS := hwParams (fun d => d.totalAmount) h
    let last := lastD h
    predWalk
      (fun (k : Nat) ym =>
        let ka := k + 1
        let idx := ((ym.2 - 1) % 12).toNat
        ((prP.1 + ka * prP.2.1) * prP.2.2 idx,
         (prS.1 + ka * prS.2.1) * prS.2.2 idx, ka))
      (monthsFuel last.year last.month tY tM) 0 last.year last.month tY tM last

/-- Autoregressive coefficient `j` of the simplified AR(3) of
`arimaPrediction`: average over the regression rows of
`value at lag j` divided by `value at the predicted position`
(the same index pattern as the source's price and sales loops). -/
def arimaCoef (f : StatPoint → ℚ) (h : List StatPoint) (j : Nat) : ℚ :=
  let p := 3
  let n := h.length - p
  ((List.range n).map
    (fun i => f (h.getD (i + p - j - 1) default) / f (h.getD (i + p) default))).sum / (n : ℚ)

/-- `arimaPrediction` (lines 1099-1184): with fewer than 4 points it falls
back to `linearPrediction`; otherwise the per-step value is the weighted sum
of the 3 most recent values under the normalized AR coefficients, and the
3-value rolling windows shift in the new raw predictions. -/
def arimaPrediction (h : List StatPoint) (tY tM : Int) : List StatPoint :=
  if h.length < 3 + 1 then linearPrediction h tY tM
  else
    let p := 3
    let coefP := (List.range p).map (arimaCoef (fun d => d.avgPrice) h)
    let coefS := (List.range p).map (arimaCoef (fun d => d.totalAmount) h)
    let normP := coefP.map (fun c => c / coefP.sum)
    let normS := coefS.map (fun c => c / coefS.sum)
    let recentP := (h.drop (h.length - p)).map (fun d => d.avgPrice)
    let recentS := (h.drop (h.length - p)).map (fun d => d.totalAmount)
    let last := lastD h
    predWalk
      (fun (rs : List ℚ × List ℚ) _ =>
        let vP := ((List.range p).map
          (fun j => rs.1.getD (rs.1.length - 1 - j) 0 * normP.getD j 0)).sum
        let vS := ((List.range p).map
          (fun j => rs.2.getD (rs.2.length - 1 - j) 0 * normS.getD j 0)).sum
        (vP, vS, (rs.1.drop 1 ++ [vP], rs.2.drop 1 ++ [vS])))
      (monthsFuel last.year last.month tY tM) (recentP, recentS)
      last.year last.month tY tM last

/-- The closed method selector of the dual-metric chart
(the `PredictionMethod` union type). -/
inductive PredictionMethod where
  | linear
  | polynomial
  | exponential
  | seasonal
  | movingAverage
  | weightedMovingAverage
  | exponentialSmoothing
  | holtWinters
  | arima
deriving Repr, DecidableEq

/-- `generatePredictions` (lines 1186-1225), the forecast dispatcher:
empty result with fewer than 3 historical points or a target not strictly
after the last historical point, otherwise dispatch on the method name.
(The source's `default:` switch branch is unreachable for the closed
`PredictionMethod` union and has no counterpart here.) -/
def generatePredictions (powRoot : ℚ → ℚ → ℚ) (h : List StatPoint) (tY tM : Int)
    (m : PredictionMethod) : List StatPoint :=
  if h.length < 3 then []
  else
    let last := lastD h
    if tY < last.year ∨ (tY = last.year ∧ tM ≤ last.month) then []
    else
      match m with
      | .linear => linearPrediction h tY tM
      | .polynomial => polynomialPrediction h tY tM
      | .exponential => exponentialPrediction powRoot h tY tM
      | .seasonal => seasonalPrediction h tY tM
      | .movingAverage => movingAveragePrediction h tY tM
      | .weightedMovingAverage => weightedMovingAveragePrediction h tY tM
      | .exponentialSmoothing => exponentialSmoothingPrediction h tY tM
      | .holtWinters => holtWintersPrediction h tY tM
      | .arima => arimaPrediction h tY tM

/-- A raw per-category sales record (`MonthlySalesF`), the `salesData` prop
of `SalesByCategoryChart`. -/
structure SalesRecord where
  year : Int
  month : Int
  totalAmount : ℚ
  category : String
deriving Repr, DecidableEq, Inhabited

/-- An aggregated (or predicted) single-metric point of the category chart. -/
structure AggPoint where
  year : Int
  month : Int
  totalAmount : ℚ
  category : Option String := none
  isPredicted : Bool := false
deriving Repr, DecidableEq, Inhabited

/-- The comparator `(a, b) => a.year - b.year || a.month - b.month` as a
total preorder on `SalesRecord`. -/
def salesLe (a b : SalesRecord) : Prop :=
  a.year < b.year ∨ (a.year = b.year ∧ a.month ≤ b.month)

instance : DecidableRel salesLe := fun a b =>
  inferInstanceAs (Decidable (a.year < b.year ∨ (a.year = b.year ∧ a.month ≤ b.month)))

instance : IsTotal SalesRecord salesLe := ⟨fun a b => by unfold salesLe; omega⟩

instance : IsTrans SalesRecord salesLe := ⟨fun a b c => by unfold salesLe; omega⟩

/-- The same chronological comparator on `AggPoint`. -/
def aggLe (a b : AggPoint) : Prop :=
  a.year < b.year ∨ (a.year = b.year ∧ a.month ≤ b.month)

instance : DecidableRel aggLe := fun a b =>
  inferInstanceAs (Decidable (a.year < b.year ∨ (a.year = b.year ∧ a.month ≤ b.month)))

instance : IsTotal AggPoint aggLe := ⟨fun a b => by unfold aggLe; omega⟩

instance : IsTrans AggPoint aggLe := ⟨fun a b c => by unfold aggLe; omega⟩

/-- The same chronological comparator on `MonthlyStat`. -/
def statLe (a b : MonthlyStat) : Prop :=
  a.year < b.year ∨ (a.year = b.year ∧ a.month ≤ b.month)

instance : DecidableRel statLe := fun a b =>
  inferInstanceAs (Decidable (a.year < b.year ∨ (a.year = b.year ∧ a.month ≤ b.month)))

instance : IsTotal MonthlyStat statLe := ⟨fun a b => by unfold statLe; omega⟩

instance : IsTrans MonthlyStat statLe := ⟨fun a b c => by unfold statLe; omega⟩

/-- `sortedData` (`SalesChartOnCategory.tsx` line 107): the sales records in
chronological order (stable sort, see the header note). -/
def sortedData (salesData : List SalesRecord) : List SalesRecord :=
  List.insertionSort salesLe salesData

/-- `completeMonths` (lines 109-112): empty when at most 2 records,
otherwise the sorted records with the first and last dropped
(`sortedData.slice(1, sortedData.length - 1)`). -/
def completeMonths (salesData : List SalesRecord) : List SalesRecord :=
  let sorted := sortedData salesData
  if sorted.length ≤ 2 then [] else sorted.tail.dropLast

/-- One step of the aggregation `Map` of `aggregatedData` (lines 117-129):
under the `"Total"` filter every record contributes; under an exact category
filter only matching records do.  An existing `(year, month)` entry has the
amount added in place; otherwise a fresh entry is appended (JS `Map`
preserves insertion order).  The string key `` `${year}-${month}` `` is
modelled by the pair, see the header note. -/
def aggInsert (selectedCategory : String) (acc : List AggPoint) (d : SalesRecord) :
    List AggPoint :=
  if selectedCategory = "Total" then
    if acc.any (fun e => e.year == d.year && e.month == d.month) then
      acc.map (fun e =>
        if e.year = d.year ∧ e.month = d.month then
          { e with totalAmount := e.totalAmount + d.totalAmount }
        else e)
    else acc ++ [{ year := d.year, month := d.month, totalAmount := d.totalAmount }]
  else if d.category = selectedCategory then
    if acc.any (fun e => e.year == d.year && e.month == d.month) then
      acc.map (fun e =>
        if e.year = d.year ∧ e.month = d.month then
          { e with totalAmount := e.totalAmount + d.totalAmount }
        else e)
    else acc ++ [{ year := d.year, month := d.month, totalAmount := d.totalAmount,
                   category := some d.category }]
  else acc

/-- `aggregatedData` (lines 114-132): group the complete months by
`(year, month)` under the category filter, then sort ascending. -/
def aggregatedData (selectedCategory : String) (salesData : List SalesRecord) :
    List AggPoint :=
  List.insertionSort aggLe
    ((completeMonths salesData).foldl (aggInsert selectedCategory) [])

/-- `monthlyAvg` of `generateSmartSalesPredictions` (lines 32-47): average
`totalAmount` over the observations of calendar month `m`, `0` if none. -/
def smartMonthlyAvg (h : List AggPoint) (m : Int) : ℚ :=
  let vs := (h.filter (fun d => d.month == m)).map (fun d => d.totalAmount)
  if vs.length = 0 then 0 else vs.sum / vs.length

/-- `trendSlope` of `generateSmartSalesPredictions` (lines 49-60): the OLS
slope over `(index, totalAmount)`. -/
def smartSlope (h : List AggPoint) : ℚ :=
  let n : ℚ := h.length
  let sx := (h.enum.map (fun p => (p.1 : ℚ))).sum
  let sy := (h.map (fun d => d.totalAmount)).sum
  let sxy := (h.enum.map (fun p => (p.1 : ℚ) * p.2.totalAmount)).sum
  let sxx := (h.enum.map (fun p => (p.1 : ℚ) * p.1)).sum
  (n * sxy - sx * sy) / (n * sxx - sx * sx)

/-- The generation loop of `generateSmartSalesPredictions` (lines 70-97):
seasonal baseline (falling back to the overall average when `0`, the
source's `|| avgSales`) scaled by `(1 + growth/100) ^ monthsAhead`. -/
def smartSalesLoop (monthlyAvg : Int → ℚ) (avgSales growth : ℚ) :
    Nat → Nat → Int → Int → Int → Int → List AggPoint
  | 0, _, _, _, _, _ => []
  | fuel + 1, k, cY, cM, tY, tM =>
    if cY < tY ∨ (cY = tY ∧ cM < tM) then
      let ym := stepMonth cY cM
      let ka := k + 1
      let seasonal := if monthlyAvg ym.2 = 0 then avgSales else monthlyAvg ym.2
      let v := seasonal * (1 + growth / 100) ^ ka
      { year := ym.1, month := ym.2, totalAmount := max 0 v, isPredicted := true }
        :: smartSalesLoop monthlyAvg avgSales growth fuel ka ym.1 ym.2 tY tM
    else []

/-- `generateSmartSalesPredictions` (lines 21-98), the single-metric
seasonal predictor of the category chart: empty with fewer than 6 points. -/
def generateSmartSalesPredictions (h : List AggPoint) (tY tM : Int) : List AggPoint :=
  if h.length < 6 then []
  else
    let last := h.getLastD default
    let n : ℚ := h.length
    let avgSales := (h.map (fun d => d.totalAmount)).sum / n
    let monthlyGrowth := smartSlope h / avgSales * 100
    smartSalesLoop (smartMonthlyAvg h) avgSales monthlyGrowth
      (monthsFuel last.year last.month tY tM) 0 last.year last.month tY tM

/-- `generateSmartPredictions` (`src/unnamed/part_000` lines 41-152), the
dual-metric smart predictor: the body of `seasonalPrediction` behind a
6-point minimum guard (the source duplicates the code; so does this file). -/
def generateSmartPredictions (h : List StatPoint) (tY tM : Int) : List StatPoint :=
  if h.length < 6 then []
  else
    let n : ℚ := h.length
    let trendSlopePrice := olsSlope (fun d => d.avgPrice) h
    let trendSlopeSales := olsSlope (fun d => d.totalAmount) h
    let avgPrice := sumY (fun d => d.avgPrice) h / n
    let avgSales := sumY (fun d => d.totalAmount) h / n
    let monthlyGrowthPrice := trendSlopePrice / avgPrice * 100
    let monthlyGrowthSales := trendSlopeSales / avgSales * 100
    let last := lastD h
    predWalk
      (fun (k : Nat) ym =>
        let ka := k + 1
        let mp := monthlyAvgOf (fun d => d.avgPrice) h ym.2
        let ms := monthlyAvgOf (fun d => d.totalAmount) h ym.2
        let seasonalPrice := if mp = 0 then avgPrice else mp
        let seasonalSales := if ms = 0 then avgSales else ms
        (seasonalPrice * (1 + monthlyGrowthPrice / 100) ^ ka,
         seasonalSales * (1 + monthlyGrowthSales / 100) ^ ka, ka))
      (monthsFuel last.year last.month tY tM) 0 last.year last.month tY tM last

/-- The enrichment of the first sorted record in `allFormattedData`
(`part_000` lines 174-183): all four change fields are `0`. -/
def firstFormatted (m : MonthlyStat) : StatPoint :=
  { year := m.year
    month := m.month
    avgPrice := m.avgPrice
    totalAmount := m.totalAmount
    priceChange := 0
    salesChange := 0
    priceChangePercent := 0
    salesChangePercent := 0
    isPredicted := false }

/-- The enrichment of a non-first sorted record in `allFormattedData`
(`part_000` lines 185-196): changes against the previous sorted record. -/
def changeFormatted (prev cur : MonthlyStat) : StatPoint :=
  { year := cur.year
    month := cur.month
    avgPrice := cur.avgPrice
    totalAmount := cur.totalAmount
    priceChange := cur.avgPrice - prev.avgPrice
    salesChange := cur.totalAmount - prev.totalAmount
    priceChangePercent := (cur.avgPrice - prev.avgPrice) / prev.avgPrice * 100
    salesChangePercent := (cur.totalAmount - prev.totalAmount) / prev.totalAmount * 100
    isPredicted := false }

/-- The sorted-and-trimmed stage of `allFormattedData` (`part_000` lines
159-169): sort chronologically; `shift()` and `pop()` only when more than
2 records. -/
def trimmedStats (chartData : List MonthlyStat) : List MonthlyStat :=
  let sorted := List.insertionSort statLe chartData
  if 2 < sorted.length then sorted.tail.dropLast else sorted

/-- The `withChanges` map over the non-first records. -/
def withChangesGo (prev : MonthlyStat) : List MonthlyStat → List StatPoint
  | [] => []
  | x :: xs => changeFormatted prev x :: withChangesGo x xs

/-- `allFormattedData` (`part_000` lines 157-200, duplicated at
`SalesChartOnCategory.tsx` lines 1228-1268): sort, trim when longer than 2,
then annotate each record with its changes against the previous one. -/
def allFormattedData (chartData : List MonthlyStat) : List StatPoint :=
  match trimmedStats chartData with
  | [] => []
  | m :: ms => firstFormatted m :: withChangesGo m ms

/-- The `while (targetMonth > 12) { targetMonth -= 12; targetYear++ }`
normalization of `dataWithPredictions` (lines 1287-1290), by fuel (the fuel
`m.toNat` dominates the iteration count, which is at most `m / 12`). -/
def normTarget : Nat → Int → Int → Int × Int
  | 0, y, m => (y, m)
  | fuel + 1, y, m => if m > 12 then normTarget fuel (y + 1) (m - 12) else (y, m)

/-- `dataWithPredictions` of the dual-metric chart (lines 1276-1295):
append the dispatched forecast for the target `predictionMonths` months
after the last historical point.  The `enablePrediction` UI flag is out of
scope; its disabled case coincides with `predictionMonths = 0`. -/
def dataWithPredictions (powRoot : ℚ → ℚ → ℚ) (chartData : List MonthlyStat)
    (predictionMonths : Nat) (m : PredictionMethod) : List StatPoint :=
  let all := allFormattedData chartData
  if predictionMonths = 0 ∨ all.length = 0 then all
  else
    let last := lastD all
    let t := normTarget (last.month + predictionMonths).toNat
      last.year (last.month + predictionMonths)
    all ++ generatePredictions powRoot all t.1 t.2 m

/-- The four seasonal accumulators of `seasonalTotals`. -/
structure SeasonTotals where
  winter : ℚ
  spring : ℚ
  summer : ℚ
  fall : ℚ
deriving Repr, DecidableEq

/-- One accumulation step of `seasonalTotals` (lines 188-193): add the
point's amount to its season's bucket (Winter = {12, 1, 2},
Spring = {3, 4, 5}, Summer = {6, 7, 8}, Fall = the `else` branch). -/
def seasonStep (s : SeasonTotals) (d : AggPoint) : SeasonTotals :=
  if d.month = 12 ∨ d.month = 1 ∨ d.month = 2 then
    { s with winter := s.winter + d.totalAmount }
  else if d.month = 3 ∨ d.month = 4 ∨ d.month = 5 then
    { s with spring := s.spring + d.totalAmount }
  else if d.month = 6 ∨ d.month = 7 ∨ d.month = 8 then
    { s with summer := s.summer + d.totalAmount }
  else { s with fall := s.fall + d.totalAmount }

/-- `seasonalTotals` (lines 184-195): sum `totalAmount` over the displayed
points of the fixed reference year 2023 that are not predicted, bucketed by
calendar season. -/
def seasonalTotals (displayedData : List AggPoint) : SeasonTotals :=
  (displayedData.filter (fun v => v.year == 2023 && !v.isPredicted)).foldl
    seasonStep ⟨0, 0, 0, 0⟩

/-- The outcome of `getSeasonMessage`: either the "No 2023 data available
for seasonal analysis" report or the peak/low season pair (the display
string formatting is out of scope). -/
inductive SeasonMessage where
  | noData
  | peakLow (peak low : String)
deriving Repr, DecidableEq

/-- `Object.entries(seasonalTotals)`, in the source's insertion order. -/
def seasonEntries (s : SeasonTotals) : List (String × ℚ) :=
  [("Winter", s.winter), ("Spring", s.spring), ("Summer", s.summer), ("Fall", s.fall)]

/-- The descending comparator `(a, b) => b[1] - a[1]` of `getSeasonMessage`. -/
def entryGe (a b : String × ℚ) : Prop := b.2 ≤ a.2

instance : DecidableRel entryGe := fun a b => inferInstanceAs (Decidable (b.2 ≤ a.2))

instance : IsTotal (String × ℚ) entryGe := ⟨fun a b => le_total b.2 a.2⟩

instance : IsTrans (String × ℚ) entryGe :=
  ⟨fun _ _ _ hab hbc => le_trans hbc hab⟩

/-- `getSeasonMessage` (lines 197-201): sort the four season totals
descending; report no data when the first (largest) total is `0`, else the
first and last seasons of the sorted list. -/
def getSeasonMessage (s : SeasonTotals) : SeasonMessage :=
  let entries := List.insertionSort entryGe (seasonEntries s)
  if (entries.headD ("", 0)).2 = 0 then .noData
  else .peakLow (entries.headD ("", 0)).1 (entries.getLastD ("", 0)).1

/-! ### The (year, month) trace of the shared generation loop -/

/-- The pure `(year, month)` trace of the shared generation loop: the months
visited by `predWalk`, independent of the per-step values. -/
def monthWalk : Nat → Int → Int → Int → Int → List (Int × Int)
  | 0, _, _, _, _ => []
  | fuel + 1, cY, cM, tY, tM =>
    if cY < tY ∨ (cY = tY ∧ cM < tM) then
      let ym := stepMonth cY cM
      ym :: monthWalk fuel ym.1 ym.2 tY tM
    else []

theorem predWalk_map_ym {σ : Type} (step : σ → Int × Int → ℚ × ℚ × σ) :
    ∀ (fuel : Nat) (s : σ) (cY cM tY tM : Int) (prev : StatPoint),
      (predWalk step fuel s cY cM tY tM prev).map (fun q => (q.year, q.month))
        = monthWalk fuel cY cM tY tM := by
  intro fuel
  induction fuel with
  | zero => intro s cY cM tY tM prev; rfl
  | succ n ih =>
    intro s cY cM tY tM prev
    simp only [predWalk, monthWalk]
    split
    · simp [predPoint, ih]
    · rfl

theorem ymLt_stepMonth (y m : Int) : ymLt (y, m) (stepMonth y m) := by
  unfold ymLt stepMonth
  split <;> simp

theorem monthWalk_chain (fuel : Nat) :
    ∀ cY cM tY tM : Int,
      List.Chain' (fun a b : Int × Int => b = stepMonth a.1 a.2)
        ((cY, cM) :: monthWalk fuel cY cM tY tM) := by
  induction fuel with
  | zero => intro cY cM tY tM; simp [monthWalk]
  | succ n ih =>
    intro cY cM tY tM
    simp only [monthWalk]
    split
    · exact List.Chain'.cons rfl (ih (stepMonth cY cM).1 (stepMonth cY cM).2 tY tM)
    · simp

theorem monthWalk_head (fuel : Nat) (cY cM tY tM : Int) (hf : fuel ≠ 0)
    (hlt : cY < tY ∨ (cY = tY ∧ cM < tM)) :
    (monthWalk fuel cY cM tY tM).head? = some (stepMonth cY cM) := by
  cases fuel with
  | zero => exact absurd rfl hf
  | succ n => simp [monthWalk, hlt]

theorem monthWalk_getLast :
    ∀ (fuel : Nat) (cY cM tY tM : Int),
      1 ≤ cM → cM ≤ 12 → 1 ≤ tM → tM ≤ 12 →
      (cY < tY ∨ (cY = tY ∧ cM < tM)) →
      fuel = monthsFuel cY cM tY tM →
      (monthWalk fuel cY cM tY tM).getLast? = some (tY, tM) := by
  intro fuel
  induction fuel with
  | zero =>
    intro cY cM tY tM h1 h2 h3 h4 hlt hf
    exfalso
    unfold monthsFuel at hf
    omega
  | succ n ih =>
    intro cY cM tY tM h1 h2 h3 h4 hlt hf
    simp only [monthWalk, if_pos hlt]
    by_cases hend : 12 * tY + tM = 12 * cY + cM + 1
    · have hn : n = 0 := by unfold monthsFuel at hf; omega
      have hym : stepMonth cY cM = (tY, tM) := by
        unfold stepMonth
        split <;> (refine Prod.ext ?_ ?_ <;> simp <;> omega)
      subst hn
      simp [monthWalk, hym]
    · have hlt2 : (stepMonth cY cM).1 < tY
          ∨ ((stepMonth cY cM).1 = tY ∧ (stepMonth cY cM).2 < tM) := by
        unfold stepMonth; unfold monthsFuel at hf
        split <;> simp <;> omega
      have hrec := ih (stepMonth cY cM).1 (stepMonth cY cM).2 tY tM
        (by unfold stepMonth; split <;> simp; omega)
        (by unfold stepMonth; split <;> simp; omega)
        h3 h4 hlt2
        (by unfold stepMonth monthsFuel; unfold monthsFuel at hf; split <;> simp <;> omega)
      rcases hne : monthWalk n (stepMonth cY cM).1 (stepMonth cY cM).2 tY tM with _ | ⟨a, l⟩
      · rw [hne] at hrec; simp at hrec
      · rw [hne] at hrec
        rw [List.getLast?_cons_cons]
        exact hrec

/-! ### Claim C1 -/

/-- C1: the forecast dispatcher `generatePredictions` returns the empty
sequence whenever the history has fewer than 3 points, and whenever the
target `(year, month)` is not strictly after the last historical point; in
both cases no method runs and no error is raised. -/
theorem generatePredictions_noop (powRoot : ℚ → ℚ → ℚ) (h : List StatPoint)
    (tY tM : Int) (m : PredictionMethod)
    (hcond : h.length < 3 ∨ ¬ ymLt ((lastD h).year, (lastD h).month) (tY, tM)) :
    generatePredictions powRoot h tY tM m = [] := by
  unfold generatePredictions
  by_cases hlen : h.length < 3
  · simp [hlen]
  · rcases hcond with hc | hc
    · exact absurd hc hlen
    · have hg : tY < (lastD h).year ∨ (tY = (lastD h).year ∧ tM ≤ (lastD h).month) := by
        unfold ymLt at hc; simp at hc; omega
      simp [hlen, hg]

/-- Witness for C1 at the empty history. -/
theorem generatePredictions_noop_witness :
    ([] : List StatPoint).length < 3
      ∧ generatePredictions (fun _ _ => 0) [] 2024 1 .linear = [] :=
  ⟨by decide, generatePredictions_noop (fun _ _ => 0) [] 2024 1 .linear (Or.inl (by decide))⟩

/-! ### Claim C5 -/

/-- C5: with fewer than 12 historical points `holtWintersPrediction` returns
exactly the output of `exponentialSmoothingPrediction` on the same inputs,
and with fewer than 4 points `arimaPrediction` returns exactly the output of
`linearPrediction`; both fallbacks are silent (total functions, no error). -/
theorem fallback_equivalence (h : List StatPoint) (tY tM : Int) :
    (h.length < 12 →
      holtWintersPrediction h tY tM = exponentialSmoothingPrediction h tY tM)
    ∧ (h.length < 4 → arimaPrediction h tY tM = linearPrediction h tY tM) := by
  constructor
  · intro hl; unfold holtWintersPrediction; simp [hl]
  · intro hl; unfold arimaPrediction
    have : h.length < 3 + 1 := hl
    simp [this]

/-- Witness for C5: an 8-point history for the Holt-Winters fallback and a
3-point history for the ARIMA fallback. -/
theorem fallback_equivalence_witness :
    (let h8 : List WineSales.StatPoint :=
      [⟨2023, 1, 10, 100, 0, 0, 0, 0, false⟩, ⟨2023, 2, 10, 110, 0, 0, 0, 0, false⟩,
       ⟨2023, 3, 10, 120, 0, 0, 0, 0, false⟩, ⟨2023, 4, 10, 130, 0, 0, 0, 0, false⟩,
       ⟨2023, 5, 10, 140, 0, 0, 0, 0, false⟩, ⟨2023, 6, 10, 150, 0, 0, 0, 0, false⟩,
       ⟨2023, 7, 10, 160, 0, 0, 0, 0, false⟩, ⟨2023, 8, 10, 170, 0, 0, 0, 0, false⟩]
     h8.length < 12
      ∧ holtWintersPrediction h8 2024 1 = exponentialSmoothingPrediction h8 2024 1)
    ∧ (let h3 : List WineSales.StatPoint :=
        [⟨2023, 1, 10, 100, 0, 0, 0, 0, false⟩, ⟨2023, 2, 10, 110, 0, 0, 0, 0, false⟩,
         ⟨2023, 3, 10, 120, 0, 0, 0, 0, false⟩]
       h3.length < 4 ∧ arimaPrediction h3 2024 1 = linearPrediction h3 2024 1) :=
  ⟨⟨by decide, (fallback_equivalence _ 2024 1).1 (by decide)⟩,
   ⟨by decide, (fallback_equivalence _ 2024 1).2 (by decide)⟩⟩

/-! ### Non-negativity of predicted values -/

theorem predWalk_nonneg {σ : Type} (step : σ → Int × Int → ℚ × ℚ × σ) :
    ∀ (fuel : Nat) (s : σ) (cY cM tY tM : Int) (prev : StatPoint),
      ∀ q ∈ predWalk step fuel s cY cM tY tM prev,
        0 ≤ q.avgPrice ∧ 0 ≤ q.totalAmount := by
  intro fuel
  induction fuel with
  | zero => intro s cY cM tY tM prev q hq; simp [predWalk] at hq
  | succ n ih =>
    intro s cY cM tY tM prev q hq
    simp only [predWalk] at hq
    split at hq
    · rcases List.mem_cons.mp hq with h | h
      · subst h; exact ⟨le_max_left 0 _, le_max_left 0 _⟩
      · exact ih _ _ _ _ _ _ q h
    · simp at hq

theorem linearPrediction_nonneg (h : List StatPoint) (tY tM : Int) :
    ∀ q ∈ linearPrediction h tY tM, 0 ≤ q.avgPrice ∧ 0 ≤ q.totalAmount := by
  intro q hq
  simp only [linearPrediction] at hq
  exact predWalk_nonneg _ _ _ _ _ _ _ _ q hq

theorem polynomialPrediction_nonneg (h : List StatPoint) (tY tM : Int) :
    ∀ q ∈ polynomialPrediction h tY tM, 0 ≤ q.avgPrice ∧ 0 ≤ q.totalAmount := by
  intro q hq
  simp only [polynomialPrediction] at hq
  exact predWalk_nonneg _ _ _ _ _ _ _ _ q hq

theorem exponentialPrediction_nonneg (powRoot : ℚ → ℚ → ℚ) (h : List StatPoint)
    (tY tM : Int) :
    ∀ q ∈ exponentialPrediction powRoot h tY tM, 0 ≤ q.avgPrice ∧ 0 ≤ q.totalAmount := by
  intro q hq
  simp only [exponentialPrediction] at hq
  exact predWalk_nonneg _ _ _ _ _ _ _ _ q hq

theorem seasonalPrediction_nonneg (h : List StatPoint) (tY tM : Int) :
    ∀ q ∈ seasonalPrediction h tY tM, 0 ≤ q.avgPrice ∧ 0 ≤ q.totalAmount := by
  intro q hq
  simp only [seasonalPrediction] at hq
  exact predWalk_nonneg _ _ _ _ _ _ _ _ q hq

theorem movingAveragePrediction_nonneg (h : List StatPoint) (tY tM : Int) :
    ∀ q ∈ movingAveragePrediction h tY tM, 0 ≤ q.avgPrice ∧ 0 ≤ q.totalAmount := by
  intro q hq
  simp only [movingAveragePrediction] at hq
  exact predWalk_nonneg _ _ _ _ _ _ _ _ q hq

theorem weightedMovingAveragePrediction_nonneg (h : List StatPoint) (tY tM : Int) :
    ∀ q ∈ weightedMovingAveragePrediction h tY tM,
      0 ≤ q.avgPrice ∧ 0 ≤ q.totalAmount := by
  intro q hq
  simp only [weightedMovingAveragePrediction] at hq
  exact predWalk_nonneg _ _ _ _ _ _ _ _ q hq

theorem exponentialSmoothingPrediction_nonneg (h : List StatPoint) (tY tM : Int) :
    ∀ q ∈ exponentialSmoothingPrediction h tY tM,
      0 ≤ q.avgPrice ∧ 0 ≤ q.totalAmount := by
  intro q hq
  simp only [exponentialSmoothingPrediction] at hq
  exact predWalk_nonneg _ _ _ _ _ _ _ _ q hq

theorem holtWintersPrediction_nonneg (h : List StatPoint) (tY tM : Int) :
    ∀ q ∈ holtWintersPrediction h tY tM, 0 ≤ q.avgPrice ∧ 0 ≤ q.totalAmount := by
  intro q hq
  unfold holtWintersPrediction at hq
  split at hq
  · exact exponentialSmoothingPrediction_nonneg h tY tM q hq
  · exact predWalk_nonneg _ _ _ _ _ _ _ _ q hq

theorem arimaPrediction_nonneg (h : List StatPoint) (tY tM : Int) :
    ∀ q ∈ arimaPrediction h tY tM, 0 ≤ q.avgPrice ∧ 0 ≤ q.totalAmount := by
  intro q hq
  unfold arimaPrediction at hq
  split at hq
  · exact linearPrediction_nonneg h tY tM q hq
  · exact predWalk_nonneg _ _ _ _ _ _ _ _ q hq

/-! ### Claim C3 -/

/-- C3: for every history, target and method, every predicted point stores a
`totalAmount` and an `avgPrice` that are ≥ 0, each per-step value being
floored at 0 through `Math.max(0, value)` before being stored. -/
theorem forecast_nonneg (powRoot : ℚ → ℚ → ℚ) (h : List StatPoint) (tY tM : Int)
    (m : PredictionMethod) :
    ∀ q ∈ generatePredictions powRoot h tY tM m,
      0 ≤ q.avgPrice ∧ 0 ≤ q.totalAmount := by
  intro q hq
  simp only [generatePredictions] at hq
  split at hq
  · simp at hq
  · split at hq
    · simp at hq
    · cases m with
      | linear => exact linearPrediction_nonneg h tY tM q hq
      | polynomial => exact polynomialPrediction_nonneg h tY tM q hq
      | exponential => exact exponentialPrediction_nonneg powRoot h tY tM q hq
      | seasonal => exact seasonalPrediction_nonneg h tY tM q hq
      | movingAverage => exact movingAveragePrediction_nonneg h tY tM q hq
      | weightedMovingAverage =>
          exact weightedMovingAveragePrediction_nonneg h tY tM q hq
      | exponentialSmoothing =>
          exact exponentialSmoothingPrediction_nonneg h tY tM q hq
      | holtWinters => exact holtWintersPrediction_nonneg h tY tM q hq
      | arima => exact arimaPrediction_nonneg h tY tM q hq

/-- A concrete 3-point decreasing history, used by concrete witnesses. -/
def histDown : List StatPoint :=
  [⟨2023, 1, 10, 120, 0, 0, 0, 0, false⟩, ⟨2023, 2, 10, 110, 0, 0, 0, 0, false⟩,
   ⟨2023, 3, 10, 100, 0, 0, 0, 0, false⟩]

/-- Witness for C3 at a concrete forecast: the first predicted point of the
linear method on a 3-point decreasing history. -/
theorem forecast_nonneg_witness :
    0 ≤ ((generatePredictions (fun _ _ => 0) histDown 2023 4 .linear).getD 0
          default).avgPrice
    ∧ 0 ≤ ((generatePredictions (fun _ _ => 0) histDown 2023 4 .linear).getD 0
          default).totalAmount := by
  refine forecast_nonneg (fun _ _ => 0) histDown 2023 4 .linear _ ?_
  norm_num [histDown, generatePredictions, lastD, linearPrediction, predWalk, monthsFuel,
    stepMonth, predPoint, olsSlope, olsIntercept, sumX, sumXX, sumY, sumXY, List.enum,
    List.enumFrom, List.getLastD]

/-! ### The month trace of every dispatched method -/

theorem gen_map_ym (powRoot : ℚ → ℚ → ℚ) (h : List StatPoint) (tY tM : Int)
    (m : PredictionMethod) (hlen : ¬ h.length < 3)
    (hfut : ¬ (tY < (lastD h).year ∨ (tY = (lastD h).year ∧ tM ≤ (lastD h).month))) :
    (generatePredictions powRoot h tY tM m).map (fun q => (q.year, q.month))
      = monthWalk (monthsFuel (lastD h).year (lastD h).month tY tM)
          (lastD h).year (lastD h).month tY tM := by
  simp only [generatePredictions, if_neg hlen, if_neg hfut]
  cases m with
  | linear => simp only [linearPrediction]; exact predWalk_map_ym _ _ _ _ _ _ _ _
  | polynomial => simp only [polynomialPrediction]; exact predWalk_map_ym _ _ _ _ _ _ _ _
  | exponential => simp only [exponentialPrediction]; exact predWalk_map_ym _ _ _ _ _ _ _ _
  | seasonal => simp only [seasonalPrediction]; exact predWalk_map_ym _ _ _ _ _ _ _ _
  | movingAverage =>
      simp only [movingAveragePrediction]; exact predWalk_map_ym _ _ _ _ _ _ _ _
  | weightedMovingAverage =>
      simp only [weightedMovingAveragePrediction]; exact predWalk_map_ym _ _ _ _ _ _ _ _
  | exponentialSmoothing =>
      simp only [exponentialSmoothingPrediction]; exact predWalk_map_ym _ _ _ _ _ _ _ _
  | holtWinters =>
      show (holtWintersPrediction h tY tM).map (fun q => (q.year, q.month)) = _
      unfold holtWintersPrediction
      split
      · simp only [exponentialSmoothingPrediction]; exact predWalk_map_ym _ _ _ _ _ _ _ _
      · exact predWalk_map_ym _ _ _ _ _ _ _ _
  | arima =>
      show (arimaPrediction h tY tM).map (fun q => (q.year, q.month)) = _
      unfold arimaPrediction
      split
      · simp only [linearPrediction]; exact predWalk_map_ym _ _ _ _ _ _ _ _
      · exact predWalk_map_ym _ _ _ _ _ _ _ _

/-! ### Claim C2 -/

/-- C2: whenever the dispatcher preconditions hold (history length ≥ 3,
valid months, target strictly after the last historical point), the
predicted `(year, month)` pairs of every one of the nine methods form the
consecutive calendar chain that starts one month after the last historical
point, advances one normalized month per step, and ends exactly at the
target. -/
theorem forecast_months_consecutive (powRoot : ℚ → ℚ → ℚ) (h : List StatPoint)
    (tY tM : Int) (m : PredictionMethod) (hlen : 3 ≤ h.length)
    (hm1 : 1 ≤ (lastD h).month) (hm2 : (lastD h).month ≤ 12)
    (ht1 : 1 ≤ tM) (ht2 : tM ≤ 12)
    (hafter : ymLt ((lastD h).year, (lastD h).month) (tY, tM)) :
    generatePredictions powRoot h tY tM m ≠ []
    ∧ ((generatePredictions powRoot h tY tM m).map (fun q => (q.year, q.month))).head?
        = some (stepMonth (lastD h).year (lastD h).month)
    ∧ List.Chain' (fun a b : Int × Int => b = stepMonth a.1 a.2)
        ((generatePredictions powRoot h tY tM m).map (fun q => (q.year, q.month)))
    ∧ ((generatePredictions powRoot h tY tM m).map (fun q => (q.year, q.month))).getLast?
        = some (tY, tM) := by
  have hlen' : ¬ h.length < 3 := by omega
  have hlt : (lastD h).year < tY ∨ ((lastD h).year = tY ∧ (lastD h).month < tM) := by
    unfold ymLt at hafter; simpa using hafter
  have hfut : ¬ (tY < (lastD h).year ∨ (tY = (lastD h).year ∧ tM ≤ (lastD h).month)) := by
    omega
  have hmap := gen_map_ym powRoot h tY tM m hlen' hfut
  have hlast := monthWalk_getLast _ _ _ _ _ hm1 hm2 ht1 ht2 hlt rfl
  refine ⟨?_, ?_, ?_, ?_⟩
  · intro hnil
    rw [hnil] at hmap
    rw [← hmap] at hlast
    simp at hlast
  · rw [hmap]
    exact monthWalk_head _ _ _ _ _ (by unfold monthsFuel; omega) hlt
  · rw [hmap]
    exact (monthWalk_chain _ _ _ _ _).tail
  · rw [hmap]
    exact hlast

/-- Witness for C2: the linear method on a 3-point history with target
June 2023. -/
theorem forecast_months_consecutive_witness :
    (let h3 : List WineSales.StatPoint :=
      [⟨2023, 1, 10, 100, 0, 0, 0, 0, false⟩, ⟨2023, 2, 10, 110, 0, 0, 0, 0, false⟩,
       ⟨2023, 3, 10, 120, 0, 0, 0, 0, false⟩]
     generatePredictions (fun _ _ => 0) h3 2023 6 .linear ≠ []
     ∧ ((generatePredictions (fun _ _ => 0) h3 2023 6 .linear).map
          (fun q => (q.year, q.month))).head?
        = some (stepMonth (lastD h3).year (lastD h3).month)
     ∧ List.Chain' (fun a b : Int × Int => b = stepMonth a.1 a.2)
        ((generatePredictions (fun _ _ => 0) h3 2023 6 .linear).map
          (fun q => (q.year, q.month)))
     ∧ ((generatePredictions (fun _ _ => 0) h3 2023 6 .linear).map
          (fun q => (q.year, q.month))).getLast? = some (2023, 6)) :=
  forecast_months_consecutive (fun _ _ => 0) _ 2023 6 .linear (by decide)
    (by decide) (by decide) (by decide) (by decide) (by decide)

/-! ### Claim C4 -/

theorem predWalk_natstep_getD (fp fs : Nat → ℚ) :
    ∀ (fuel s : Nat) (cY cM tY tM : Int) (prev : StatPoint) (i : Nat),
      i < (predWalk (fun (k : Nat) _ => (fp k, fs k, k + 1)) fuel s cY cM tY tM prev).length →
      ((predWalk (fun (k : Nat) _ => (fp k, fs k, k + 1)) fuel s cY cM tY tM
          prev).getD i default).avgPrice = max 0 (fp (s + i))
      ∧ ((predWalk (fun (k : Nat) _ => (fp k, fs k, k + 1)) fuel s cY cM tY tM
          prev).getD i default).totalAmount = max 0 (fs (s + i)) := by
  intro fuel
  induction fuel with
  | zero => intro s cY cM tY tM prev i hi; simp [predWalk] at hi
  | succ n ih =>
    intro s cY cM tY tM prev i hi
    by_cases hg : cY < tY ∨ (cY = tY ∧ cM < tM)
    · simp only [predWalk, if_pos hg] at hi ⊢
      cases i with
      | zero => simp [predPoint]
      | succ j =>
        simp only [List.getD_cons_succ]
        have hj : j < (predWalk (fun (k : Nat) _ => (fp k, fs k, k + 1)) n (s + 1)
            (stepMonth cY cM).1 (stepMonth cY cM).2 tY tM
            (predPoint prev (stepMonth cY cM).1 (stepMonth cY cM).2 (fp s) (fs s))).length := by
          simpa using hi
        have hrec := ih (s + 1) (stepMonth cY cM).1 (stepMonth cY cM).2 tY tM
          (predPoint prev (stepMonth cY cM).1 (stepMonth cY cM).2 (fp s) (fs s)) j hj
        have harith : s + 1 + j = s + (j + 1) := by omega
        rw [harith] at hrec
        exact hrec
    · simp [predWalk, if_neg hg] at hi

/-- The concrete increasing history of the C4 scenario:
`[(2023,1,100), (2023,2,110), (2023,3,120)]` as `totalAmount` values
(`avgPrice` is not part of the scenario and is set to 0). -/
def histUp : List StatPoint :=
  [⟨2023, 1, 0, 100, 0, 0, 0, 0, false⟩, ⟨2023, 2, 0, 110, 0, 0, 0, 0, false⟩,
   ⟨2023, 3, 0, 120, 0, 0, 0, 0, false⟩]

/-- C4: on the history `[(2023,1,100), (2023,2,110), (2023,3,120)]` with
method `linear` and target June 2023 the forecast produces exactly the 3
predicted points April, May, June 2023 with amounts 130, 140, 150, all
flagged predicted; in general the linear method's stored amount at list
position `i` is the floored OLS line value at index `n + i` (the index
continues counting up from `n`). -/
theorem linear_forecast_scenario (powRoot : ℚ → ℚ → ℚ) (h : List StatPoint)
    (tY tM : Int) (i : Nat) (hi : i < (linearPrediction h tY tM).length) :
    (generatePredictions powRoot histUp 2023 6 .linear).map
        (fun q => (q.year, q.month, q.totalAmount, q.isPredicted))
      = [(2023, 4, (130 : ℚ), true), (2023, 5, 140, true), (2023, 6, 150, true)]
    ∧ ((linearPrediction h tY tM).getD i default).totalAmount
        = max 0 (olsSlope (fun d => d.totalAmount) h * ((h.length + i : Nat) : ℚ)
            + olsIntercept (fun d => d.totalAmount) h) := by
  constructor
  · norm_num [histUp, generatePredictions, lastD, linearPrediction, predWalk, monthsFuel,
      stepMonth, predPoint, olsSlope, olsIntercept, sumX, sumXX, sumY, sumXY, List.enum,
      List.enumFrom, List.getLastD]
  · simp only [linearPrediction] at hi ⊢
    exact (predWalk_natstep_getD
      (fun k => olsSlope (fun d => d.avgPrice) h * (k : ℚ)
        + olsIntercept (fun d => d.avgPrice) h)
      (fun k => olsSlope (fun d => d.totalAmount) h * (k : ℚ)
        + olsIntercept (fun d => d.totalAmount) h)
      _ h.length (lastD h).year (lastD h).month tY tM (lastD h) i hi).2

/-- Witness for C4 at position 0 of the scenario forecast itself. -/
theorem linear_forecast_scenario_witness :
    0 < (linearPrediction histUp 2023 6).length
    ∧ ((generatePredictions (fun _ _ => 0) histUp 2023 6 .linear).map
          (fun q => (q.year, q.month, q.totalAmount, q.isPredicted))
        = [(2023, 4, (130 : ℚ), true), (2023, 5, 140, true), (2023, 6, 150, true)]
      ∧ ((linearPrediction histUp 2023 6).getD 0 default).totalAmount
          = max 0 (olsSlope (fun d => d.totalAmount) histUp
              * ((histUp.length + 0 : Nat) : ℚ)
            + olsIntercept (fun d => d.totalAmount) histUp)) := by
  have hlen : 0 < (linearPrediction histUp 2023 6).length := by
    norm_num [histUp, lastD, linearPrediction, predWalk, monthsFuel, stepMonth, predPoint,
      olsSlope, olsIntercept, sumX, sumXX, sumY, sumXY, List.enum, List.enumFrom,
      List.getLastD]
  exact ⟨hlen, linear_forecast_scenario (fun _ _ => 0) histUp 2023 6 0 hlen⟩

/-! ### Claim C10 -/

theorem gen_ne_nil (powRoot : ℚ → ℚ → ℚ) (h : List StatPoint) (tY tM : Int)
    (m : PredictionMethod) (hlen : ¬ h.length < 3)
    (hm1 : 1 ≤ (lastD h).month) (hm2 : (lastD h).month ≤ 12)
    (ht1 : 1 ≤ tM) (ht2 : tM ≤ 12)
    (hlt : (lastD h).year < tY ∨ ((lastD h).year = tY ∧ (lastD h).month < tM)) :
    generatePredictions powRoot h tY tM m ≠ [] := by
  have hfut : ¬ (tY < (lastD h).year ∨ (tY = (lastD h).year ∧ tM ≤ (lastD h).month)) := by
    omega
  have hmap := gen_map_ym powRoot h tY tM m hlen hfut
  have hlast := monthWalk_getLast _ _ _ _ _ hm1 hm2 ht1 ht2 hlt rfl
  intro hnil
  rw [hnil] at hmap
  rw [← hmap] at hlast
  simp at hlast

/-- C10: both smart seasonal predictors return the empty list whenever their
history has fewer than 6 points — a stricter minimum than the dispatcher's
3-point precondition: on the same history of length 3 to 5 with a valid
future target the dispatcher produces a non-empty forecast while the smart
predictor produces none. -/
theorem smart_min_history (h : List AggPoint) (h2 : List StatPoint) (tY tM : Int)
    (powRoot : ℚ → ℚ → ℚ) (m : PredictionMethod) :
    (h.length < 6 → generateSmartSalesPredictions h tY tM = [])
    ∧ (h2.length < 6 → generateSmartPredictions h2 tY tM = [])
    ∧ (3 ≤ h2.length → h2.length < 6 →
        1 ≤ (lastD h2).month → (lastD h2).month ≤ 12 → 1 ≤ tM → tM ≤ 12 →
        ymLt ((lastD h2).year, (lastD h2).month) (tY, tM) →
        generatePredictions powRoot h2 tY tM m ≠ []
          ∧ generateSmartPredictions h2 tY tM = []) := by
  refine ⟨?_, ?_, ?_⟩
  · intro hl; unfold generateSmartSalesPredictions; simp [hl]
  · intro hl; unfold generateSmartPredictions; simp [hl]
  · intro h3 h6 hm1 hm2 ht1 ht2 hymlt
    have hlt : (lastD h2).year < tY ∨ ((lastD h2).year = tY ∧ (lastD h2).month < tM) := by
      unfold ymLt at hymlt; simpa using hymlt
    refine ⟨gen_ne_nil powRoot h2 tY tM m (by omega) hm1 hm2 ht1 ht2 hlt, ?_⟩
    unfold generateSmartPredictions; simp [h6]

/-- A concrete 5-point single-metric history. -/
def hist5Agg : List AggPoint :=
  [⟨2023, 1, 100, none, false⟩, ⟨2023, 2, 110, none, false⟩, ⟨2023, 3, 120, none, false⟩,
   ⟨2023, 4, 130, none, false⟩, ⟨2023, 5, 140, none, false⟩]

/-- A concrete 5-point dual-metric history. -/
def hist5 : List StatPoint :=
  [⟨2023, 1, 10, 100, 0, 0, 0, 0, false⟩, ⟨2023, 2, 10, 110, 0, 0, 0, 0, false⟩,
   ⟨2023, 3, 10, 120, 0, 0, 0, 0, false⟩, ⟨2023, 4, 10, 130, 0, 0, 0, 0, false⟩,
   ⟨2023, 5, 10, 140, 0, 0, 0, 0, false⟩]

/-- Witness for C10 on concrete 5-point histories with target January 2024. -/
theorem smart_min_history_witness :
    (hist5Agg.length < 6 ∧ generateSmartSalesPredictions hist5Agg 2024 1 = [])
    ∧ (hist5.length < 6 ∧ generateSmartPredictions hist5 2024 1 = [])
    ∧ (generatePredictions (fun _ _ => 0) hist5 2024 1 .linear ≠ []
        ∧ generateSmartPredictions hist5 2024 1 = []) :=
  ⟨⟨by decide,
    (smart_min_history hist5Agg hist5 2024 1 (fun _ _ => 0) .linear).1 (by decide)⟩,
   ⟨by decide,
    (smart_min_history hist5Agg hist5 2024 1 (fun _ _ => 0) .linear).2.1 (by decide)⟩,
   (smart_min_history hist5Agg hist5 2024 1 (fun _ _ => 0) .linear).2.2 (by decide)
     (by decide) (by decide) (by decide) (by decide) (by decide) (by decide)⟩

/-! ### Claim C6 -/

theorem withChangesGo_map_ym (ms : List MonthlyStat) :
    ∀ prev, (withChangesGo prev ms).map (fun q => (q.year, q.month))
      = ms.map (fun r => (r.year, r.month)) := by
  induction ms with
  | nil => intro prev; rfl
  | cons x xs ih => intro prev; simp [withChangesGo, changeFormatted, ih]

theorem allFormattedData_map_ym (cs : List MonthlyStat) :
    (allFormattedData cs).map (fun q => (q.year, q.month))
      = (trimmedStats cs).map (fun r => (r.year, r.month)) := by
  unfold allFormattedData
  cases htr : trimmedStats cs with
  | nil => simp
  | cons m ms => simp [firstFormatted, withChangesGo_map_ym]

/-- A concrete 2-record input on which the two aggregation variants differ. -/
def statPair : List MonthlyStat := [⟨2023, 1, 5, 100⟩, ⟨2023, 2, 5, 110⟩]

/-- Counterexample to C6: on a 2-record input, `allFormattedData` keeps all
records — the chronologically first record `(2023, 1)` is both the head of
the sorted input and still present in the output, so the first and last
records are not excluded "for every input length". -/
theorem trim_short_input_counterexample :
    (List.insertionSort statLe statPair).head?.map (fun r => (r.year, r.month))
      = some (2023, 1)
    ∧ (2023, 1) ∈ (allFormattedData statPair).map (fun q => (q.year, q.month)) := by
  constructor <;>
    norm_num [statPair, allFormattedData, trimmedStats, List.insertionSort,
      List.orderedInsert, withChangesGo, firstFormatted, changeFormatted, statLe]

/-- C6 amended: both variants sort chronologically and, for more than 2
records, drop exactly the first and last of the sorted sequence; for 2 or
fewer records `completeMonths` returns the empty list, whereas
`allFormattedData` keeps every record untrimmed. -/
theorem trimming_amended (ds : List SalesRecord) (cs : List MonthlyStat) :
    (2 < ds.length → completeMonths ds = (sortedData ds).tail.dropLast)
    ∧ (ds.length ≤ 2 → completeMonths ds = [])
    ∧ (2 < cs.length →
        (allFormattedData cs).map (fun q => (q.year, q.month))
          = ((List.insertionSort statLe cs).tail.dropLast).map
              (fun r => (r.year, r.month)))
    ∧ (cs.length ≤ 2 →
        (allFormattedData cs).map (fun q => (q.year, q.month))
          = (List.insertionSort statLe cs).map (fun r => (r.year, r.month))) := by
  have hlds : (sortedData ds).length = ds.length :=
    (List.perm_insertionSort salesLe ds).length_eq
  have hlcs : (List.insertionSort statLe cs).length = cs.length :=
    (List.perm_insertionSort statLe cs).length_eq
  refine ⟨?_, ?_, ?_, ?_⟩
  · intro hl
    unfold completeMonths
    rw [if_neg (by omega)]
  · intro hl
    unfold completeMonths
    rw [if_pos (by omega)]
  · intro hl
    rw [allFormattedData_map_ym]
    unfold trimmedStats
    rw [if_pos (by omega)]
  · intro hl
    rw [allFormattedData_map_ym]
    unfold trimmedStats
    rw [if_neg (by omega)]

/-- Witness for C6 (amended) on a 3-record and on a 2-record input. -/
theorem trimming_amended_witness :
    (2 < ([⟨2023, 1, 1, "a"⟩, ⟨2023, 2, 1, "a"⟩, ⟨2023, 3, 1, "a"⟩] :
        List SalesRecord).length
      ∧ completeMonths [⟨2023, 1, 1, "a"⟩, ⟨2023, 2, 1, "a"⟩, ⟨2023, 3, 1, "a"⟩]
          = (sortedData [⟨2023, 1, 1, "a"⟩, ⟨2023, 2, 1, "a"⟩, ⟨2023, 3, 1, "a"⟩]).tail.dropLast)
    ∧ (statPair.length ≤ 2
      ∧ (allFormattedData statPair).map (fun q => (q.year, q.month))
          = (List.insertionSort statLe statPair).map (fun r => (r.year, r.month))) :=
  ⟨⟨by decide,
    (trimming_amended [⟨2023, 1, 1, "a"⟩, ⟨2023, 2, 1, "a"⟩, ⟨2023, 3, 1, "a"⟩]
      statPair).1 (by decide)⟩,
   ⟨by decide,
    (trimming_amended [⟨2023, 1, 1, "a"⟩, ⟨2023, 2, 1, "a"⟩, ⟨2023, 3, 1, "a"⟩]
      statPair).2.2.2 (by decide)⟩⟩

/-! ### Claim C7 -/

/-- Distinctness of the aggregation keys `(year, month)`. -/
def kdiff (a b : AggPoint) : Prop := ¬ (a.year = b.year ∧ a.month = b.month)

theorem aggInsert_pairwise (c : String) (acc : List AggPoint) (d : SalesRecord)
    (hp : acc.Pairwise kdiff) : (aggInsert c acc d).Pairwise kdiff := by
  have hbump : ∀ (l : List AggPoint), l.Pairwise kdiff →
      (l.map (fun e => if e.year = d.year ∧ e.month = d.month
        then { e with totalAmount := e.totalAmount + d.totalAmount }
        else e)).Pairwise kdiff := by
    intro l hl
    rw [List.pairwise_map]
    refine hl.imp ?_
    intro a b hab
    unfold kdiff at hab ⊢
    split <;> split <;> simpa using hab
  have happend : ∀ (e : AggPoint),
      ¬ acc.any (fun a => a.year == d.year && a.month == d.month) = true →
      e.year = d.year → e.month = d.month → (acc ++ [e]).Pairwise kdiff := by
    intro e hany hey hem
    rw [List.pairwise_append]
    refine ⟨hp, List.pairwise_singleton _ _, ?_⟩
    intro a ha b hb
    simp only [List.mem_singleton] at hb
    subst hb
    unfold kdiff
    simp only [List.any_eq_true, not_exists, not_and] at hany
    intro hk
    exact absurd (by simp [hk.1, hk.2, hey, hem]) (hany a ha)
  unfold aggInsert
  by_cases hc : c = "Total"
  · rw [if_pos hc]
    by_cases hany : (acc.any fun e => e.year == d.year && e.month == d.month) = true
    · rw [if_pos hany]; exact hbump acc hp
    · rw [if_neg hany]; exact happend _ hany rfl rfl
  · rw [if_neg hc]
    by_cases hcat : d.category = c
    · rw [if_pos hcat]
      by_cases hany : (acc.any fun e => e.year == d.year && e.month == d.month) = true
      · rw [if_pos hany]; exact hbump acc hp
      · rw [if_neg hany]; exact happend _ hany rfl rfl
    · rw [if_neg hcat]; exact hp

theorem aggFold_pairwise (c : String) (ds : List SalesRecord) :
    ∀ acc : List AggPoint, acc.Pairwise kdiff →
      (ds.foldl (aggInsert c) acc).Pairwise kdiff := by
  induction ds with
  | nil => intro acc hp; exact hp
  | cons d ds ih => intro acc hp; exact ih _ (aggInsert_pairwise c acc d hp)

theorem aggregatedData_pairwise_kdiff (c : String) (sd : List SalesRecord) :
    (aggregatedData c sd).Pairwise kdiff := by
  unfold aggregatedData
  refine (aggFold_pairwise c _ [] List.Pairwise.nil).perm
    (List.perm_insertionSort aggLe _).symm ?_
  intro x y hxy
  unfold kdiff at hxy ⊢
  exact fun hk => hxy ⟨hk.1.symm, hk.2.symm⟩

theorem monthWalk_head_eq (fuel : Nat) (cY cM tY tM : Int) (p : Int × Int)
    (hp : (monthWalk fuel cY cM tY tM).head? = some p) : p = stepMonth cY cM := by
  cases fuel with
  | zero => simp [monthWalk] at hp
  | succ n =>
    simp only [monthWalk] at hp
    split at hp
    · simp at hp; exact hp.symm
    · simp at hp

/-- C7: the aggregator's output has pairwise distinct, strictly increasing
`(year, month)` pairs, and appending a dispatched forecast to any series
that satisfies the invariant preserves it, because the predicted months
start one month after the last point and advance one month per step. -/
theorem series_invariant (selectedCategory : String) (salesData : List SalesRecord)
    (powRoot : ℚ → ℚ → ℚ) (h : List StatPoint) (tY tM : Int) (m : PredictionMethod)
    (hh : List.Chain' (fun a b : StatPoint => ymLt (a.year, a.month) (b.year, b.month)) h) :
    List.Chain' (fun a b : AggPoint => ymLt (a.year, a.month) (b.year, b.month))
      (aggregatedData selectedCategory salesData)
    ∧ List.Chain' (fun a b : StatPoint => ymLt (a.year, a.month) (b.year, b.month))
        (h ++ generatePredictions powRoot h tY tM m) := by
  constructor
  · have hsorted : (aggregatedData selectedCategory salesData).Pairwise aggLe := by
      unfold aggregatedData
      exact List.sorted_insertionSort aggLe _
    have hkd := aggregatedData_pairwise_kdiff selectedCategory salesData
    refine List.Pairwise.chain' ((hsorted.and hkd).imp ?_)
    intro a b hab
    rcases hab with ⟨hle, hne⟩
    unfold aggLe at hle
    unfold kdiff at hne
    unfold ymLt
    simp only
    by_cases hy : a.year = b.year
    · right
      refine ⟨hy, ?_⟩
      rcases hle with hlt | ⟨_, hm⟩
      · omega
      · rcases lt_or_eq_of_le hm with hlt | heq
        · exact hlt
        · exact absurd ⟨hy, heq⟩ hne
    · left; omega
  · by_cases hlen : h.length < 3
    · have hnil : generatePredictions powRoot h tY tM m = [] := by
        unfold generatePredictions; simp [hlen]
      rw [hnil, List.append_nil]; exact hh
    · by_cases hfut : tY < (lastD h).year ∨ (tY = (lastD h).year ∧ tM ≤ (lastD h).month)
      · have hnil : generatePredictions powRoot h tY tM m = [] := by
          unfold generatePredictions; simp only [if_neg hlen]; simp [hfut]
        rw [hnil, List.append_nil]; exact hh
      · have hmap := gen_map_ym powRoot h tY tM m hlen hfut
        refine List.Chain'.append hh ?_ ?_
        · have hchain : List.Chain' ymLt
              ((generatePredictions powRoot h tY tM m).map (fun q => (q.year, q.month))) := by
            rw [hmap]
            refine ((monthWalk_chain _ _ _ _ _).imp ?_).tail
            intro a b hb
            rw [hb]
            exact ymLt_stepMonth a.1 a.2
          rw [List.chain'_map] at hchain
          exact hchain
        · intro x hx y hy
          have hxl : lastD h = x := by
            unfold lastD
            rw [List.getLastD_eq_getLast?, Option.mem_def.mp hx]
            rfl
          have hyhead : ((generatePredictions powRoot h tY tM m).map
              (fun q => (q.year, q.month))).head? = some (y.year, y.month) := by
            rcases hgen : generatePredictions powRoot h tY tM m with _ | ⟨a, l⟩
            · rw [hgen] at hy; simp at hy
            · rw [hgen] at hy; simp at hy; subst hy; simp
          rw [hmap] at hyhead
          have := monthWalk_head_eq _ _ _ _ _ _ hyhead
          show ymLt (x.year, x.month) (y.year, y.month)
          rw [this, ← hxl]
          exact ymLt_stepMonth _ _

/-- Witness for C7: a concrete category, sales input and 5-point series. -/
theorem series_invariant_witness :
    List.Chain' (fun a b : StatPoint => ymLt (a.year, a.month) (b.year, b.month)) hist5
    ∧ (List.Chain' (fun a b : AggPoint => ymLt (a.year, a.month) (b.year, b.month))
        (aggregatedData "Total"
          [⟨2023, 1, 1, "red"⟩, ⟨2023, 2, 1, "red"⟩, ⟨2023, 3, 1, "white"⟩])
      ∧ List.Chain' (fun a b : StatPoint => ymLt (a.year, a.month) (b.year, b.month))
          (hist5 ++ generatePredictions (fun _ _ => 0) hist5 2023 7 .linear)) :=
  ⟨by norm_num [hist5, List.chain'_cons, List.chain'_singleton, ymLt],
   series_invariant "Total"
     [⟨2023, 1, 1, "red"⟩, ⟨2023, 2, 1, "red"⟩, ⟨2023, 3, 1, "white"⟩]
     (fun _ _ => 0) hist5 2023 7 .linear
     (by norm_num [hist5, List.chain'_cons, List.chain'_singleton, ymLt])⟩

/-! ### Claim C8 -/

/-- The change-field contract relative to the preceding point `prev`: the
stored `priceChange`/`salesChange` of each point equals its computed value
minus the predecessor's stored value, the percentage forms are that
difference divided by the predecessor's stored value times 100, and the
stored metric is the computed value — floored at 0 for predicted points,
stored as-is for historical ones. -/
def chainConsistent (prev : StatPoint) : List StatPoint → Prop
  | [] => True
  | q :: qs =>
      ((∃ v, q.priceChange = v - prev.avgPrice
          ∧ q.priceChangePercent = (v - prev.avgPrice) / prev.avgPrice * 100
          ∧ q.avgPrice = (if q.isPredicted then max 0 v else v))
        ∧ (∃ w, q.salesChange = w - prev.totalAmount
          ∧ q.salesChangePercent = (w - prev.totalAmount) / prev.totalAmount * 100
          ∧ q.totalAmount = (if q.isPredicted then max 0 w else w)))
      ∧ chainConsistent q qs

/-- The full-series change contract: the very first historical point reports
zero for all four change fields, and every later point is consistent with
its immediate predecessor in the combined sequence. -/
def combinedConsistent : List StatPoint → Prop
  | [] => True
  | q :: qs => q.priceChange = 0 ∧ q.salesChange = 0 ∧ q.priceChangePercent = 0
      ∧ q.salesChangePercent = 0 ∧ chainConsistent q qs

theorem chainConsistent_append (xs : List StatPoint) :
    ∀ (p : StatPoint) (ys : List StatPoint),
      chainConsistent p (xs ++ ys)
        ↔ chainConsistent p xs ∧ chainConsistent (xs.getLastD p) ys := by
  induction xs with
  | nil => intro p ys; simp [chainConsistent]
  | cons x xs ih =>
    intro p ys
    simp only [List.cons_append, chainConsistent, List.getLastD_cons, List.append_eq,
      ih, and_assoc]

theorem predWalk_chainConsistent {σ : Type} (step : σ → Int × Int → ℚ × ℚ × σ) :
    ∀ (fuel : Nat) (s : σ) (cY cM tY tM : Int) (prev : StatPoint),
      chainConsistent prev (predWalk step fuel s cY cM tY tM prev) := by
  intro fuel
  induction fuel with
  | zero => intro s cY cM tY tM prev; simp [predWalk, chainConsistent]
  | succ n ih =>
    intro s cY cM tY tM prev
    simp only [predWalk]
    split
    · simp only [chainConsistent]
      refine ⟨⟨⟨(step s (stepMonth cY cM)).1, rfl, rfl, by simp [predPoint]⟩,
        ⟨(step s (stepMonth cY cM)).2.1, rfl, rfl, by simp [predPoint]⟩⟩, ?_⟩
      exact ih _ _ _ _ _ _
    · simp [chainConsistent]

theorem withChangesGo_chainConsistent (ms : List MonthlyStat) :
    ∀ (prev : MonthlyStat) (q : StatPoint),
      q.avgPrice = prev.avgPrice → q.totalAmount = prev.totalAmount →
      chainConsistent q (withChangesGo prev ms) := by
  induction ms with
  | nil => intro prev q _ _; simp [withChangesGo, chainConsistent]
  | cons x xs ih =>
    intro prev q hp ht
    simp only [withChangesGo, chainConsistent]
    refine ⟨⟨⟨x.avgPrice, ?_, ?_, ?_⟩, ⟨x.totalAmount, ?_, ?_, ?_⟩⟩,
      ih x (changeFormatted prev x) rfl rfl⟩
    · simp [changeFormatted, hp]
    · simp [changeFormatted, hp]
    · simp [changeFormatted]
    · simp [changeFormatted, ht]
    · simp [changeFormatted, ht]
    · simp [changeFormatted]

theorem linearPrediction_chainConsistent (h : List StatPoint) (tY tM : Int) :
    chainConsistent (lastD h) (linearPrediction h tY tM) := by
  simp only [linearPrediction]; exact predWalk_chainConsistent _ _ _ _ _ _ _ _

theorem exponentialSmoothingPrediction_chainConsistent (h : List StatPoint) (tY tM : Int) :
    chainConsistent (lastD h) (exponentialSmoothingPrediction h tY tM) := by
  simp only [exponentialSmoothingPrediction]; exact predWalk_chainConsistent _ _ _ _ _ _ _ _

theorem gen_chainConsistent (powRoot : ℚ → ℚ → ℚ) (h : List StatPoint) (tY tM : Int)
    (m : PredictionMethod) :
    chainConsistent (lastD h) (generatePredictions powRoot h tY tM m) := by
  simp only [generatePredictions]
  split
  · simp [chainConsistent]
  · split
    · simp [chainConsistent]
    · cases m with
      | linear => exact linearPrediction_chainConsistent h tY tM
      | polynomial =>
          show chainConsistent (lastD h) (polynomialPrediction h tY tM)
          simp only [polynomialPrediction]; exact predWalk_chainConsistent _ _ _ _ _ _ _ _
      | exponential =>
          show chainConsistent (lastD h) (exponentialPrediction powRoot h tY tM)
          simp only [exponentialPrediction]; exact predWalk_chainConsistent _ _ _ _ _ _ _ _
      | seasonal =>
          show chainConsistent (lastD h) (seasonalPrediction h tY tM)
          simp only [seasonalPrediction]; exact predWalk_chainConsistent _ _ _ _ _ _ _ _
      | movingAverage =>
          show chainConsistent (lastD h) (movingAveragePrediction h tY tM)
          simp only [movingAveragePrediction]; exact predWalk_chainConsistent _ _ _ _ _ _ _ _
      | weightedMovingAverage =>
          show chainConsistent (lastD h) (weightedMovingAveragePrediction h tY tM)
          simp only [weightedMovingAveragePrediction]
          exact predWalk_chainConsistent _ _ _ _ _ _ _ _
      | exponentialSmoothing =>
          exact exponentialSmoothingPrediction_chainConsistent h tY tM
      | holtWinters =>
          show chainConsistent (lastD h) (holtWintersPrediction h tY tM)
          unfold holtWintersPrediction
          split
          · exact exponentialSmoothingPrediction_chainConsistent h tY tM
          · exact predWalk_chainConsistent _ _ _ _ _ _ _ _
      | arima =>
          show chainConsistent (lastD h) (arimaPrediction h tY tM)
          unfold arimaPrediction
          split
          · exact linearPrediction_chainConsistent h tY tM
          · exact predWalk_chainConsistent _ _ _ _ _ _ _ _

/-- C8: over the combined historical + predicted sequence of the dual-metric
chart, every point's stored change fields are computed relative to the
immediately preceding point (difference of the point's computed value and
the predecessor's stored value, with the percentage forms dividing by the
predecessor's stored value), and the very first historical point reports
zero for all four change fields; this holds for every dispatched method. -/
theorem change_fields_consistent (powRoot : ℚ → ℚ → ℚ) (chartData : List MonthlyStat)
    (tY tM : Int) (m : PredictionMethod) :
    combinedConsistent
      (allFormattedData chartData
        ++ generatePredictions powRoot (allFormattedData chartData) tY tM m) := by
  rcases htr : trimmedStats chartData with _ | ⟨m0, ms⟩
  · have hafd : allFormattedData chartData = [] := by
      unfold allFormattedData; rw [htr]
    rw [hafd]
    simp [generatePredictions, combinedConsistent]
  · have hafd : allFormattedData chartData = firstFormatted m0 :: withChangesGo m0 ms := by
      unfold allFormattedData; rw [htr]
    rw [hafd]
    simp only [List.cons_append, combinedConsistent]
    refine ⟨rfl, rfl, rfl, rfl, ?_⟩
    rw [chainConsistent_append]
    constructor
    · exact withChangesGo_chainConsistent ms m0 (firstFormatted m0) rfl rfl
    · have hlast : (withChangesGo m0 ms).getLastD (firstFormatted m0)
          = lastD (firstFormatted m0 :: withChangesGo m0 ms) := by
        unfold lastD
        rw [List.getLastD_cons]
      rw [hlast, ← hafd]
      exact gen_chainConsistent powRoot (allFormattedData chartData) tY tM m

/-! ### Claim C9 -/

/-- The season total selected by one of the four `Object.entries` keys. -/
def seasonOf (s : SeasonTotals) : String → ℚ
  | "Winter" => s.winter
  | "Spring" => s.spring
  | "Summer" => s.summer
  | "Fall" => s.fall
  | _ => 0

theorem foldl_seasonStep_eq (l : List AggPoint) :
    ∀ s : SeasonTotals,
      l.foldl seasonStep s =
        ⟨s.winter + (l.map (fun d =>
            if d.month = 12 ∨ d.month = 1 ∨ d.month = 2 then d.totalAmount else 0)).sum,
         s.spring + (l.map (fun d =>
            if ¬(d.month = 12 ∨ d.month = 1 ∨ d.month = 2)
                ∧ (d.month = 3 ∨ d.month = 4 ∨ d.month = 5) then d.totalAmount else 0)).sum,
         s.summer + (l.map (fun d =>
            if ¬(d.month = 12 ∨ d.month = 1 ∨ d.month = 2)
                ∧ ¬(d.month = 3 ∨ d.month = 4 ∨ d.month = 5)
                ∧ (d.month = 6 ∨ d.month = 7 ∨ d.month = 8) then d.totalAmount else 0)).sum,
         s.fall + (l.map (fun d =>
            if ¬(d.month = 12 ∨ d.month = 1 ∨ d.month = 2)
                ∧ ¬(d.month = 3 ∨ d.month = 4 ∨ d.month = 5)
                ∧ ¬(d.month = 6 ∨ d.month = 7 ∨ d.month = 8)
              then d.totalAmount else 0)).sum⟩ := by
  induction l with
  | nil => intro s; simp
  | cons d l ih =>
    intro s
    simp only [List.foldl_cons, List.map_cons, List.sum_cons, ih]
    unfold seasonStep
    by_cases h1 : d.month = 12 ∨ d.month = 1 ∨ d.month = 2 <;>
      by_cases h2 : d.month = 3 ∨ d.month = 4 ∨ d.month = 5 <;>
        by_cases h3 : d.month = 6 ∨ d.month = 7 ∨ d.month = 8 <;>
          first
            | omega
            | (simp [h1, h2, h3, SeasonTotals.mk.injEq]; ring)

theorem getLastD_mem {α : Type} (l : List α) (d : α) (hl : l ≠ []) :
    l.getLastD d ∈ l := by
  rw [List.getLastD_eq_getLast?]
  cases hgl : l.getLast? with
  | none =>
    exfalso
    cases l with
    | nil => exact hl rfl
    | cons a t => rw [List.getLast?_eq_getLast _ (by simp)] at hgl; simp at hgl
  | some y =>
    exact List.mem_of_mem_getLast? (by rw [hgl]; rfl)

theorem getLastD_congr {α : Type} (l : List α) (d d' : α) (hl : l ≠ []) :
    l.getLastD d = l.getLastD d' := by
  rw [List.getLastD_eq_getLast?, List.getLastD_eq_getLast?]
  cases hgl : l.getLast? with
  | none =>
    exfalso
    cases l with
    | nil => exact hl rfl
    | cons a t => rw [List.getLast?_eq_getLast _ (by simp)] at hgl; simp at hgl
  | some y => rfl

theorem sorted_head_ge (l : List (String × ℚ)) (hs : l.Pairwise entryGe) :
    ∀ x ∈ l, x.2 ≤ (l.headD ("", 0)).2 := by
  cases l with
  | nil => intro x hx; simp at hx
  | cons a t =>
    intro x hx
    rcases List.mem_cons.mp hx with rfl | hxt
    · simp
    · have hrel := (List.pairwise_cons.mp hs).1 x hxt
      simpa [entryGe] using hrel

theorem sorted_getLastD_le (l : List (String × ℚ)) :
    l.Pairwise entryGe → ∀ x ∈ l, (l.getLastD ("", 0)).2 ≤ x.2 := by
  induction l with
  | nil => intro _ x hx; simp at hx
  | cons a t ih =>
    intro hs x hx
    rw [List.getLastD_cons]
    cases t with
    | nil =>
      rcases List.mem_cons.mp hx with rfl | h
      · simp [List.getLastD]
      · simp at h
    | cons b t2 =>
      have hne : (b :: t2 : List (String × ℚ)) ≠ [] := by simp
      have hmem : (b :: t2).getLastD a ∈ b :: t2 := getLastD_mem _ _ hne
      rcases List.mem_cons.mp hx with rfl | hxt
      · have hrel := (List.pairwise_cons.mp hs).1 _ hmem
        simpa [entryGe] using hrel
      · have hih := ih (List.pairwise_cons.mp hs).2 x hxt
        rwa [getLastD_congr _ ("", 0) a hne] at hih

theorem mem_seasonEntries (s : SeasonTotals) (x : String × ℚ)
    (hx : x ∈ seasonEntries s) :
    seasonOf s x.1 = x.2
    ∧ (x.2 = s.winter ∨ x.2 = s.spring ∨ x.2 = s.summer ∨ x.2 = s.fall) := by
  simp only [seasonEntries, List.mem_cons, List.mem_singleton, List.not_mem_nil,
    or_false] at hx
  rcases hx with h | h | h | h <;> subst h <;> exact ⟨rfl, by simp⟩

theorem getSeasonMessage_spec (s : SeasonTotals) :
    (getSeasonMessage s = .noData
      ↔ max (max s.winter s.spring) (max s.summer s.fall) = 0)
    ∧ (max (max s.winter s.spring) (max s.summer s.fall) ≠ 0 →
        ∃ pk lo, getSeasonMessage s = .peakLow pk lo
          ∧ seasonOf s pk = max (max s.winter s.spring) (max s.summer s.fall)
          ∧ seasonOf s lo = min (min s.winter s.spring) (min s.summer s.fall)) := by
  have hperm : (List.insertionSort entryGe (seasonEntries s)).Perm (seasonEntries s) :=
    List.perm_insertionSort entryGe (seasonEntries s)
  have hsorted : (List.insertionSort entryGe (seasonEntries s)).Pairwise entryGe :=
    List.sorted_insertionSort entryGe (seasonEntries s)
  have hSne : List.insertionSort entryGe (seasonEntries s) ≠ [] := by
    intro hnil
    have hleq := hperm.length_eq
    rw [hnil] at hleq
    simp [seasonEntries] at hleq
  have hdmem : (List.insertionSort entryGe (seasonEntries s)).headD ("", 0)
      ∈ List.insertionSort entryGe (seasonEntries s) := by
    rcases hc : List.insertionSort entryGe (seasonEntries s) with _ | ⟨a, t⟩
    · exact absurd hc hSne
    · simp
  have hboundhd : ∀ x ∈ seasonEntries s,
      x.2 ≤ ((List.insertionSort entryGe (seasonEntries s)).headD ("", 0)).2 := by
    intro x hx
    exact sorted_head_ge _ hsorted x (hperm.mem_iff.mpr hx)
  have hwinter : ("Winter", s.winter) ∈ seasonEntries s := by simp [seasonEntries]
  have hspring : ("Spring", s.spring) ∈ seasonEntries s := by simp [seasonEntries]
  have hsummer : ("Summer", s.summer) ∈ seasonEntries s := by simp [seasonEntries]
  have hfall : ("Fall", s.fall) ∈ seasonEntries s := by simp [seasonEntries]
  have hdL := hperm.mem_iff.mp hdmem
  have hdfacts := mem_seasonEntries s _ hdL
  have hdmax : ((List.insertionSort entryGe (seasonEntries s)).headD ("", 0)).2
      = max (max s.winter s.spring) (max s.summer s.fall) := by
    apply le_antisymm
    · rcases hdfacts.2 with h | h | h | h <;> rw [h]
      · exact le_max_of_le_left (le_max_left _ _)
      · exact le_max_of_le_left (le_max_right _ _)
      · exact le_max_of_le_right (le_max_left _ _)
      · exact le_max_of_le_right (le_max_right _ _)
    · exact max_le (max_le (hboundhd _ hwinter) (hboundhd _ hspring))
        (max_le (hboundhd _ hsummer) (hboundhd _ hfall))
  by_cases hz : ((List.insertionSort entryGe (seasonEntries s)).headD ("", 0)).2 = 0
  · have hmsg : getSeasonMessage s = .noData := by
      unfold getSeasonMessage
      rw [if_pos hz]
    constructor
    · rw [hmsg]
      constructor
      · intro _; rw [← hdmax]; exact hz
      · intro _; rfl
    · intro hmx
      exact absurd (hdmax ▸ hz) hmx
  · have hmsg : getSeasonMessage s
        = .peakLow ((List.insertionSort entryGe (seasonEntries s)).headD ("", 0)).1
            ((List.insertionSort entryGe (seasonEntries s)).getLastD ("", 0)).1 := by
      unfold getSeasonMessage
      rw [if_neg hz]
    constructor
    · rw [hmsg]
      constructor
      · intro hcon; exact absurd hcon (by simp)
      · intro h0; exact absurd (hdmax.trans h0) hz
    · intro _
      refine ⟨_, _, hmsg, ?_, ?_⟩
      · rw [hdfacts.1, hdmax]
      · have hlmem := getLastD_mem (List.insertionSort entryGe (seasonEntries s))
          ("", 0) hSne
        have hlL := hperm.mem_iff.mp hlmem
        have hlfacts := mem_seasonEntries s _ hlL
        have hboundlast : ∀ x ∈ seasonEntries s,
            ((List.insertionSort entryGe (seasonEntries s)).getLastD ("", 0)).2 ≤ x.2 := by
          intro x hx
          exact sorted_getLastD_le _ hsorted x (hperm.mem_iff.mpr hx)
        have hlmin : ((List.insertionSort entryGe (seasonEntries s)).getLastD ("", 0)).2
            = min (min s.winter s.spring) (min s.summer s.fall) := by
          apply le_antisymm
          · exact le_min (le_min (hboundlast _ hwinter) (hboundlast _ hspring))
              (le_min (hboundlast _ hsummer) (hboundlast _ hfall))
          · rcases hlfacts.2 with h | h | h | h <;> rw [h]
            · exact min_le_of_left_le (min_le_left _ _)
            · exact min_le_of_left_le (min_le_right _ _)
            · exact min_le_of_right_le (min_le_left _ _)
            · exact min_le_of_right_le (min_le_right _ _)
        rw [hlfacts.1, hlmin]

/-- Counterexample to C9: a single windowed point of March 2023 with a
negative net amount makes the spring total `-5`, yet the code reports the
"no data" message (the largest total, `0`, is what it actually tests), so
"no data exactly when all four totals are 0" is false. -/
theorem season_noData_counterexample :
    getSeasonMessage (seasonalTotals [⟨2023, 3, -5, none, false⟩]) = .noData
    ∧ ¬ ((seasonalTotals [⟨2023, 3, -5, none, false⟩]).winter = 0
        ∧ (seasonalTotals [⟨2023, 3, -5, none, false⟩]).spring = 0
        ∧ (seasonalTotals [⟨2023, 3, -5, none, false⟩]).summer = 0
        ∧ (seasonalTotals [⟨2023, 3, -5, none, false⟩]).fall = 0) := by
  constructor
  · norm_num [seasonalTotals, seasonStep, getSeasonMessage, seasonEntries,
      List.insertionSort, List.orderedInsert, entryGe]
  · intro hall
    have := hall.2.1
    norm_num [seasonalTotals, seasonStep] at this

/-- C9 amended: the seasonal analytics buckets the windowed points by
calendar season over the fixed reference year 2023 and non-predicted points
only; the peak and low seasons reported attain the maximum and minimum
totals; and the "no data" message is reported exactly when the largest
seasonal total is 0 (for non-negative amounts this coincides with all four
totals being 0, but not in general). -/
theorem season_analysis_amended (data : List AggPoint)
    (hval : ∀ d ∈ data, 1 ≤ d.month ∧ d.month ≤ 12) :
    ((seasonalTotals data).winter
        = ((data.filter (fun v => v.year == 2023 && !v.isPredicted)).map (fun d =>
            if d.month = 12 ∨ d.month = 1 ∨ d.month = 2 then d.totalAmount else 0)).sum
      ∧ (seasonalTotals data).spring
        = ((data.filter (fun v => v.year == 2023 && !v.isPredicted)).map (fun d =>
            if d.month = 3 ∨ d.month = 4 ∨ d.month = 5 then d.totalAmount else 0)).sum
      ∧ (seasonalTotals data).summer
        = ((data.filter (fun v => v.year == 2023 && !v.isPredicted)).map (fun d =>
            if d.month = 6 ∨ d.month = 7 ∨ d.month = 8 then d.totalAmount else 0)).sum
      ∧ (seasonalTotals data).fall
        = ((data.filter (fun v => v.year == 2023 && !v.isPredicted)).map (fun d =>
            if d.month = 9 ∨ d.month = 10 ∨ d.month = 11 then d.totalAmount else 0)).sum)
    ∧ (getSeasonMessage (seasonalTotals data) = .noData
        ↔ max (max (seasonalTotals data).winter (seasonalTotals data).spring)
            (max (seasonalTotals data).summer (seasonalTotals data).fall) = 0)
    ∧ (max (max (seasonalTotals data).winter (seasonalTotals data).spring)
          (max (seasonalTotals data).summer (seasonalTotals data).fall) ≠ 0 →
        ∃ pk lo, getSeasonMessage (seasonalTotals data) = .peakLow pk lo
          ∧ seasonOf (seasonalTotals data) pk
              = max (max (seasonalTotals data).winter (seasonalTotals data).spring)
                  (max (seasonalTotals data).summer (seasonalTotals data).fall)
          ∧ seasonOf (seasonalTotals data) lo
              = min (min (seasonalTotals data).winter (seasonalTotals data).spring)
                  (min (seasonalTotals data).summer (seasonalTotals data).fall)) := by
  refine ⟨?_, (getSeasonMessage_spec (seasonalTotals data)).1,
    (getSeasonMessage_spec (seasonalTotals data)).2⟩
  have hsub : ∀ d ∈ data.filter (fun v => v.year == 2023 && !v.isPredicted),
      1 ≤ d.month ∧ d.month ≤ 12 := by
    intro d hd
    exact hval d (List.mem_filter.mp hd).1
  unfold seasonalTotals
  rw [foldl_seasonStep_eq]
  refine ⟨by simp, ?_, ?_, ?_⟩
  · simp only [zero_add]
    refine congrArg List.sum (List.map_congr_left ?_)
    intro d _
    by_cases h : d.month = 3 ∨ d.month = 4 ∨ d.month = 5
    · rw [if_pos ⟨by omega, h⟩, if_pos h]
    · rw [if_neg (by omega), if_neg h]
  · simp only [zero_add]
    refine congrArg List.sum (List.map_congr_left ?_)
    intro d _
    by_cases h : d.month = 6 ∨ d.month = 7 ∨ d.month = 8
    · rw [if_pos ⟨by omega, by omega, h⟩, if_pos h]
    · rw [if_neg (by omega), if_neg h]
  · simp only [zero_add]
    refine congrArg List.sum (List.map_congr_left ?_)
    intro d hd
    have hv := hsub d hd
    by_cases h : d.month = 9 ∨ d.month = 10 ∨ d.month = 11
    · rw [if_pos ⟨by omega, by omega, by omega⟩, if_pos h]
    · rw [if_neg (by omega), if_neg h]

/-- Witness for C9 (amended) on a single July 2023 point with amount 10. -/
theorem season_analysis_amended_witness :
    (∀ d ∈ ([⟨2023, 7, 10, none, false⟩] : List AggPoint),
      1 ≤ d.month ∧ d.month ≤ 12)
    ∧ (getSeasonMessage (seasonalTotals [⟨2023, 7, 10, none, false⟩]) = .noData
        ↔ max (max (seasonalTotals [⟨2023, 7, 10, none, false⟩]).winter
              (seasonalTotals [⟨2023, 7, 10, none, false⟩]).spring)
            (max (seasonalTotals [⟨2023, 7, 10, none, false⟩]).summer
              (seasonalTotals [⟨2023, 7, 10, none, false⟩]).fall) = 0) :=
  ⟨by decide,
   (season_analysis_amended [⟨2023, 7, 10, none, false⟩] (by decide)).2.1⟩

end WineSales
